import Mathlib

/-!
Verification of the parasolr `SolrQuerySet` query-builder layer
(`parasolr/query/queryset.py`, `parasolr/query/aliased_queryset.py`)
against its natural-language specification.

Python dictionaries are embedded as insertion-ordered association lists
(`Params`), Python `None` as `Option.none`, machine integers as `Int`,
and the fallible transport collaborator (`SolrClient.query`, which
returns `None` on any network/backend error) as a function into
`Option SolrResponse`.  Exceptions raised by the layer are embedded as
`Except PyError` results.
-/

namespace Parasolr

/-- Values that can appear in a Solr query-parameter dictionary:
strings, lists of strings, booleans and integers. -/
inductive PVal
  | s (v : String)
  | l (v : List String)
  | b (v : Bool)
  | n (v : Int)
deriving DecidableEq, Repr

/-- A Python dict embedded as an insertion-ordered association list. -/
abbrev Params := List (String × PVal)

/-- Python dict assignment `d[k] = v`: replace the value in place if the
key is present (keeping its position), otherwise append the new pair. -/
def setKey (p : Params) (k : String) (v : PVal) : Params :=
  if p.any (fun kv => kv.1 = k) then
    p.map (fun kv => if kv.1 = k then (k, v) else kv)
  else p ++ [(k, v)]

/-- Fold a sequence of key/value pairs into a dict, transforming each key
with `T` first.  `applyOpts id` is Python's `dict.update`; the facet and
stats blocks of `query_opts` use non-trivial key transformers. -/
def applyOpts (T : String → String) (p : Params) (opts : Params) : Params :=
  opts.foldl (fun acc kv => setKey acc (T kv.1) kv.2) p

/-- Python `dict.update`. -/
def updateParams (p q : Params) : Params := applyOpts id p q

/-- Python `d.get(k)` / `k in d`: first value stored under key `k`. -/
def getP (p : Params) (k : String) : Option PVal :=
  (p.find? (fun kv => kv.1 = k)).map (fun kv => kv.2)

/-- Keys of a parameter dict, in order. -/
def keysP (p : Params) : List String := p.map (fun kv => kv.1)

/-- The state held by a `SolrQuerySet` instance (class attributes of
`SolrQuerySet`, queryset.py lines 32-46), minus the result cache. -/
structure QueryState where
  start : Int
  stop : Option Int
  sort_options : List String
  search_qs : List String
  filter_qs : List String
  field_list : List String
  highlight_fields : List String
  facet_field_list : List String
  stats_field_list : List String
  range_facet_fields : List String
  facet_opts : Params
  stats_opts : Params
  highlight_opts : Params
  raw_params : Params
deriving DecidableEq, Repr

/-- The default query state: `start = 0`, `stop = None`, all collections
empty (class-attribute defaults of `SolrQuerySet`). -/
def defaultQS : QueryState :=
  ⟨0, none, [], [], [], [], [], [], [], [], [], [], [], []⟩

/-- The search operator `" %s " % default_search_operator` with the default operator `AND`. -/
def searchOperator : String := " AND "

/-- The constant `SolrQuerySet.ANY_VALUE`. -/
def anyValue : String := "[* TO *]"

/-- Method `SolrQuerySet._set_highlighting_opts` (queryset.py lines 89-96). -/
def setHighlightingOpts (s : QueryState) (q : Params) : Params :=
  if s.highlight_fields ≠ [] then
    updateParams
      (updateParams q
        [("hl", .b true), ("hl.fl", .s (String.intercalate "," s.highlight_fields))])
      s.highlight_opts
  else q

/-- Python `s.startswith(pre)`, computed on character lists. -/
def pyStartsWith (s pre : String) : Bool :=
  pre.toList.isPrefixOf s.toList

/-- Key transformer of the faceting block: a facet option key is used
as-is if it starts with `"f."`, otherwise prefixed with `"facet."`. -/
def facetKey (k : String) : String :=
  if pyStartsWith k "f." then k else "facet." ++ k

/-- Method `SolrQuerySet._set_faceting_opts` (queryset.py lines 98-112). -/
def setFacetingOpts (s : QueryState) (q : Params) : Params :=
  if s.facet_field_list ≠ [] ∨ s.range_facet_fields ≠ [] ∨ s.facet_opts ≠ [] then
    applyOpts facetKey
      (updateParams q
        [("facet", .b true), ("facet.field", .l s.facet_field_list),
         ("facet.range", .l s.range_facet_fields)])
      s.facet_opts
  else q

/-- Key transformer of the stats block: used as-is if it starts with
`"stats"`, otherwise prefixed with `"stats."`. -/
def statsKey (k : String) : String :=
  if pyStartsWith k "stats" then k else "stats." ++ k

/-- Method `SolrQuerySet._set_stats_opts` (queryset.py lines 114-121). -/
def setStatsOpts (s : QueryState) (q : Params) : Params :=
  if s.stats_field_list ≠ [] then
    applyOpts statsKey
      (updateParams q [("stats", .b true), ("stats.field", .l s.stats_field_list)])
      s.stats_opts
  else q

/-- The initial parameter dict of `query_opts` (queryset.py lines
127-140): the five-entry dict literal, plus `rows = stop - start` when
`stop` is truthy (Python `if self.stop:`, so `stop = 0` adds no
`rows`). -/
def baseOpts (s : QueryState) : Params :=
  let q0 : Params :=
    [("start", .n s.start),
     ("fq", .l s.filter_qs),
     ("fl", .s (String.intercalate "," s.field_list)),
     ("q", .s (let j := String.intercalate searchOperator s.search_qs
               if j = "" then "*:*" else j)),
     ("sort", .s (String.intercalate "," s.sort_options))]
  match s.stop with
  | some v => if v ≠ 0 then setKey q0 "rows" (.n (v - s.start)) else q0
  | none => q0

/-- The final line of `query_opts`: remove any pair whose value is the
empty string or the empty list (`if v not in ["", []]`). -/
def stripEmpty (p : Params) : Params :=
  p.filter (fun kv => ¬ (kv.2 = .s "" ∨ kv.2 = .l []))

/-- The parameter dict of `query_opts` just before the final stripping
line: the base dict with the highlight, facet and stats blocks applied
and the raw parameters merged last. -/
def queryOptsPre (s : QueryState) : Params :=
  updateParams (setStatsOpts s (setFacetingOpts s (setHighlightingOpts s (baseOpts s))))
    s.raw_params

/-- Method `SolrQuerySet.query_opts` (queryset.py lines 123-157): assemble the
parameter dict, add `rows` only when `stop` is truthy, apply the
highlight/facet/stats blocks, merge raw parameters last, and strip every
pair whose value is the empty string or the empty list. -/
def queryOpts (s : QueryState) : Params :=
  stripEmpty (queryOptsPre s)

/-! ## The lookup translator (`SolrQuerySet._lookup_to_filter`) -/

/-- A value passed to `_lookup_to_filter`: a string, a boolean, or a
sequence whose elements are strings or Python `None` (embedded as
`Option.none`).  Numeric arguments are embedded as their decimal
strings; Python tuples (used for `range`) are embedded as lists. -/
inductive LookupVal
  | str (s : String)
  | bool (b : Bool)
  | list (elems : List (Option String))
deriving DecidableEq, Repr

/-- Python `repr` of a sequence element as it appears in `str(list)`:
`None` or a single-quoted string (`\x27` is the apostrophe). -/
def pyElemRepr : Option String → String
  | none => "None"
  | some s => "\x27" ++ s ++ "\x27"

/-- Python `str` of a `LookupVal`, as interpolated by `"%s" % value`. -/
def pyStr : LookupVal → String
  | .str s => s
  | .bool b => if b then "True" else "False"
  | .list xs => "[" ++ String.intercalate ", " (xs.map pyElemRepr) ++ "]"

/-- Python truthiness of a `LookupVal`. -/
def truthy : LookupVal → Bool
  | .str s => s ≠ ""
  | .bool b => b
  | .list xs => xs ≠ []

/-- Python `key.split(sep, 1)` on character lists: split at the first occurrence
of `sep`, or `none` when `sep` does not occur. -/
def splitOnceAux (sep : List Char) : List Char → Option (List Char × List Char)
  | [] => none
  | c :: rest =>
    if sep.isPrefixOf (c :: rest) then some ([], (c :: rest).drop sep.length)
    else match splitOnceAux sep rest with
      | some (pre, post) => some (c :: pre, post)
      | none => none

/-- Python `key.split(sep, 1)`: `some (before, after)` at the first occurrence
of `sep`, `none` when `sep` does not occur (Python returns `[key]`). -/
def splitOnce (s sep : String) : Option (String × String) :=
  match splitOnceAux sep.toList s.toList with
  | some (pre, post) => some (String.mk pre, String.mk post)
  | none => none

/-- The sentinel filter of the `in` lookup: keep the values that are
neither the empty string nor `None`
(`filter(lambda x: x not in ["", None], value)`). -/
def keptValues (xs : List (Option String)) : List String :=
  xs.filterMap (fun x => match x with
    | none => none
    | some s => if s = "" then none else some s)

/-- Whether the `in` lookup saw an empty-string or `None` sentinel
(`"" in value or None in value`). -/
def hasSentinel (xs : List (Option String)) : Bool :=
  xs.contains (some "") || xs.contains none

/-- The `in`-lookup branch of `_lookup_to_filter` (queryset.py lines
253-280), for a field name `key` and the cleaned value list / sentinel
flag. -/
def inLookup (key : String) (vals : List String) (sentinel : Bool) : String :=
  if vals = [] then "-" ++ key ++ ":" ++ anyValue
  else
    let core := key ++ ":(" ++ String.intercalate " OR " vals ++ ")"
    if sentinel then
      "-(" ++ key ++ ":" ++ anyValue ++ " OR -" ++ core ++ ")"
    else core

/-- Python `start or "*"` on a range endpoint: `None` and `""` are falsy. -/
def orStar : Option String → String
  | none => "*"
  | some s => if s = "" then "*" else s

/-- The tag formatting of `_lookup_to_filter` (queryset.py lines
295-297): when `tag` is non-empty, the query is prefixed with
`\x7b!tag=<tag>\x7d`. -/
def withTag (tag s : String) : String :=
  if tag ≠ "" then "\x7b!tag=" ++ tag ++ "\x7d" ++ s else s

/-- Method `SolrQuerySet._lookup_to_filter(key, value, tag)` (queryset.py lines
231-299).  Unrecognized lookup suffixes leave `solr_query` at its
initial value `""`.  A string value under the `in` lookup is iterated
character-wise by Python (`"" in value` is true for every string and
`list(filter(..., value))` yields its characters), which is mirrored
here; a boolean under `in`, or a `range` value that is not a pair,
raises a `TypeError`/`ValueError` in Python and is embedded as `""`
(no claim exercises those calls). -/
def lookupToFilter (key : String) (value : LookupVal) (tag : String) : String :=
  let solrQuery :=
    match splitOnce key "__" with
    | none => key ++ ":" ++ pyStr value
    | some (field, lookup) =>
      if lookup = "in" then
        match value with
        | .list xs => inLookup field (keptValues xs) (hasSentinel xs)
        | .str s => inLookup field (s.toList.map (fun c => String.mk [c])) true
        | .bool _ => ""
      else if lookup = "exists" then
        (if truthy value then "" else "-") ++ field ++ ":" ++ anyValue
      else if lookup = "range" then
        match value with
        | .list [a, b] => field ++ ":[" ++ orStar a ++ " TO " ++ orStar b ++ "]"
        | _ => ""
      else ""
  withTag tag solrQuery

/-! ## Execution layer: transport collaborator, result cache, accessors -/

/-- A Solr document, already unwrapped to a plain key/value record
(`doc.as_dict()`). -/
abbrev Doc := List (String × String)

/-- The parts of a wrapped Solr query response (`QueryResponse` in
`parasolr/solr/client.py`) that the queryset layer reads.  Facet fields
and facet ranges are the order-preserving value-to-count mappings that
`BaseResponse._process_facet_counts` reconstructs; stats, highlighting
and expanded sections carry opaque nested structures, embedded here with
concrete types whose contents the queryset layer never inspects. -/
structure SolrResponse where
  numFound : Nat
  docs : List Doc
  facet_fields : List (String × List (String × Nat))
  facet_ranges : List (String × List (String × Nat))
  stats : List (String × List (String × Int))
  highlighting : List (String × List (String × List String))
  expanded : List (String × List (String × String))
deriving DecidableEq, Repr

/-- The two facet sections of `facet_counts`. -/
abbrev FacetCounts :=
  List (String × List (String × Nat)) × List (String × List (String × Nat))

/-- A `SolrQuerySet` instance: its query state plus the result cache
(`_result_cache`, `None` until an execution method on this instance
stores a response). -/
structure ExecQS where
  state : QueryState
  cache : Option SolrResponse
deriving DecidableEq, Repr

/-- The transport collaborator `SolrClient.query`: `none` embeds the
`None` returned on any network/backend error. -/
abbrev Transport := Params → Option SolrResponse

/-- Python exceptions that can escape the queryset layer. -/
inductive PyError
  | typeError
  | assertionError
  | indexError
  | valueError
  | attributeError
  | keyError
deriving DecidableEq, Repr

/-- Method `SolrQuerySet.get_results` (queryset.py lines 62-87): compile the
query options, apply keyword overrides, query the transport, store the
response (or `None`) in the result cache, and return the document list,
or `[]` when the transport failed. -/
def getResults (solr : Transport) (overrides : Params) (qs : ExecQS) :
    List Doc × ExecQS :=
  let r := solr (updateParams (queryOpts qs.state) overrides)
  (match r with
   | some resp => resp.docs
   | none => [],
   { qs with cache := r })

/-- The option dict used by the cache-miss path of `count` (queryset.py
lines 171-176): `rows = 0`, `facet = False`, `hl = False` set by dict
assignment. -/
def countParams (s : QueryState) : Params :=
  setKey (setKey (setKey (queryOpts s) "rows" (.n 0)) "facet" (.b false)) "hl" (.b false)

/-- Method `SolrQuerySet.count` (queryset.py lines 162-182): cached total when
the cache is populated, otherwise a dedicated zero-row query that does
not touch the cache; `0` on transport failure. -/
def count (solr : Transport) (qs : ExecQS) : Nat :=
  match qs.cache with
  | some r => r.numFound
  | none =>
    match solr (countParams qs.state) with
    | some r => r.numFound
    | none => 0

/-- The option dict used by the cache-miss paths of `get_facets` and
`get_stats` (queryset.py lines 194-196 and 212-214): `rows = 0`,
`hl = False` set by dict assignment. -/
def zeroRowsParams (s : QueryState) : Params :=
  setKey (setKey (queryOpts s) "rows" (.n 0)) "hl" (.b false)

/-- Method `SolrQuerySet.get_facets` (queryset.py lines 184-202).  `none`
embeds the literal empty dict `\x7b\x7d` returned on transport failure
(a dict that, unlike a populated `facet_counts`, has no section keys);
the cache is never written. -/
def getFacets (solr : Transport) (qs : ExecQS) : Option FacetCounts × ExecQS :=
  match qs.cache with
  | some r => (some (r.facet_fields, r.facet_ranges), qs)
  | none =>
    (match solr (zeroRowsParams qs.state) with
     | some r => some (r.facet_fields, r.facet_ranges)
     | none => none,
     qs)

/-- Method `SolrQuerySet.get_stats` (queryset.py lines 204-220); `none` embeds
the empty dict returned on transport failure; the cache is never
written. -/
def getStats (solr : Transport) (qs : ExecQS) :
    Option (List (String × List (String × Int))) × ExecQS :=
  match qs.cache with
  | some r => (some r.stats, qs)
  | none =>
    (match solr (zeroRowsParams qs.state) with
     | some r => some r.stats
     | none => none,
     qs)

/-- Method `SolrQuerySet.get_highlighting` (queryset.py lines 535-539): on a
cold cache it calls `get_results()` (which stores the response in the
cache) and then reads `self._result_cache.highlighting`; when the
transport failed the cache is still `None` and the attribute access
raises `AttributeError`. -/
def getHighlighting (solr : Transport) (qs : ExecQS) :
    Except PyError (List (String × List (String × List String))) × ExecQS :=
  match qs.cache with
  | some r => (.ok r.highlighting, qs)
  | none =>
    let qs' := (getResults solr [] qs).2
    match qs'.cache with
    | some r => (.ok r.highlighting, qs')
    | none => (.error .attributeError, qs')

/-- Method `SolrQuerySet.get_expanded` (queryset.py lines 222-229): same shape
as `get_highlighting`, reading the `expanded` attribute. -/
def getExpanded (solr : Transport) (qs : ExecQS) :
    Except PyError (List (String × List (String × String))) × ExecQS :=
  match qs.cache with
  | some r => (.ok r.expanded, qs)
  | none =>
    let qs' := (getResults solr [] qs).2
    match qs'.cache with
    | some r => (.ok r.expanded, qs')
    | none => (.error .attributeError, qs')

/-! ## Alias layer (`parasolr/query/aliased_queryset.py`) -/

/-- An `AliasedSolrQuerySet`: the static logical-to-backend field map
and the underlying queryset instance. -/
structure AliasedQS where
  field_aliases : List (String × String)
  qs : ExecQS
deriving DecidableEq, Repr

/-- Python `m.get(k, k)`. -/
def aliasGet (m : List (String × String)) (k : String) : String :=
  match m.find? (fun kv => kv.1 = k) with
  | some kv => kv.2
  | none => k

/-- Map `self.reverse_aliases`, derived at construction time
(aliased_queryset.py line 27). -/
def reverseAliases (a : AliasedQS) : List (String × String) :=
  a.field_aliases.map (fun kv => (kv.2, kv.1))

/-- The dict comprehension of `AliasedSolrQuerySet.get_facets`: rewrite
the top-level keys of one section through the reverse alias map, leaving
unmapped keys and all values untouched. -/
def rewriteKeys {α : Type} (m : List (String × String)) (d : List (String × α)) :
    List (String × α) :=
  d.map (fun kv => (aliasGet m kv.1, kv.2))

/-- Method `AliasedSolrQuerySet.get_facets` (aliased_queryset.py lines 98-111):
call the base accessor, then rewrite the keys of the `facet_fields` and
`facet_ranges` sections.  On transport failure the base accessor
returned the empty dict and the section subscript raises `KeyError`. -/
def aliasedGetFacets (solr : Transport) (a : AliasedQS) :
    Except PyError FacetCounts × ExecQS :=
  let (fc, qs') := getFacets solr a.qs
  match fc with
  | some p =>
    (.ok (rewriteKeys (reverseAliases a) p.1, rewriteKeys (reverseAliases a) p.2), qs')
  | none => (.error .keyError, qs')

/-- Class `AliasedSolrQuerySet` defines no `get_stats`: the method is
inherited unchanged from `SolrQuerySet`. -/
def aliasedGetStats (solr : Transport) (a : AliasedQS) :
    Option (List (String × List (String × Int))) × ExecQS :=
  getStats solr a.qs

/-- Class `AliasedSolrQuerySet` defines no `get_highlighting`: the method is
inherited unchanged from `SolrQuerySet` (the source notes this at
aliased_queryset.py lines 113-115). -/
def aliasedGetHighlighting (solr : Transport) (a : AliasedQS) :
    Except PyError (List (String × List (String × List String))) × ExecQS :=
  getHighlighting solr a.qs

/-! ## Slicing and indexing (`SolrQuerySet.__getitem__`) -/

/-- Method `SolrQuerySet.set_limits` (queryset.py lines 580-585): `start`
defaults to `0` when `None`. -/
def setLimits (s : QueryState) (lo hi : Option Int) : QueryState :=
  { s with start := lo.getD 0, stop := hi }

/-- The clone built by the single-integer path of `__getitem__`
(queryset.py lines 614 and 630): `qs_copy = self._clone()` followed by
`qs_copy.set_limits(k, k + 1)`; the clone starts with an empty result
cache. -/
def intIndexClone (qs : ExecQS) (k : Int) : ExecQS :=
  ⟨setLimits qs.state (some k) (some (k + 1)), none⟩

/-- The argument of `__getitem__`: an integer, a slice, or a value of
any other runtime type. -/
inductive GetItemKey
  | int (i : Int)
  | slice (lo hi step : Option Int)
  | notIntOrSlice
deriving DecidableEq, Repr

/-- What `__getitem__` can return: a single document, a materialized
document list (cached or stepped slices), or a lazy unexecuted clone. -/
inductive GetItemVal
  | doc (d : Doc)
  | docs (l : List Doc)
  | qs (q : ExecQS)
deriving DecidableEq, Repr

/-- Whether an optional slice bound is a negative integer. -/
def negB : Option Int → Bool
  | some v => decide (v < 0)
  | none => false

/-- The index sequence of Python extended slicing (`slice.indices`)
restricted to non-negative bounds, which the assertion in `__getitem__`
guarantees. -/
def sliceIndices (len : Nat) (lo hi : Option Int) (step : Int) : List Int :=
  if step > 0 then
    let start := min (lo.getD 0) (len : Int)
    let stop := min (hi.getD len) (len : Int)
    let cnt : Nat := if start < stop then ((stop - start - 1) / step + 1).toNat else 0
    (List.range cnt).map (fun i => start + step * i)
  else
    let start := match lo with
      | some v => min v ((len : Int) - 1)
      | none => (len : Int) - 1
    let stop := match hi with
      | some v => min v ((len : Int) - 1)
      | none => -1
    let cnt : Nat := if stop < start then ((start - stop - 1) / (-step) + 1).toNat else 0
    (List.range cnt).map (fun i => start + step * i)

/-- Python extended slicing `l[lo:hi:step]` for a non-zero step and
non-negative bounds. -/
def pySlice {α : Type} (l : List α) (lo hi : Option Int) (step : Int) : List α :=
  (sliceIndices l.length lo hi step).filterMap (fun i => l.get? i.toNat)

/-- Method `SolrQuerySet.__getitem__` (queryset.py lines 597-631).  A non-int,
non-slice key raises `TypeError`; a negative integer or negative slice
bound fails the assertion; with a populated cache the cached document
list is indexed or sliced directly (a zero step raising `ValueError`);
with a cold cache, a step-free slice returns the unexecuted clone with
limits set, a stepped slice materializes the clone and applies the step
(a zero step is falsy, so it also returns the clone), and an integer
clones with limits `(k, k + 1)`, executes, and takes element `0` of the
results (`IndexError` when that list is empty). -/
def getItem (solr : Transport) (qs : ExecQS) (k : GetItemKey) :
    Except PyError GetItemVal :=
  match k with
  | .notIntOrSlice => .error .typeError
  | .int i =>
    if i < 0 then .error .assertionError
    else match qs.cache with
      | some r =>
        match r.docs.get? i.toNat with
        | some d => .ok (.doc d)
        | none => .error .indexError
      | none =>
        match (getResults solr [] (intIndexClone qs i)).1 with
        | [] => .error .indexError
        | d :: _ => .ok (.doc d)
  | .slice lo hi st =>
    if negB lo || negB hi then .error .assertionError
    else match qs.cache with
      | some r =>
        match st with
        | some 0 => .error .valueError
        | _ => .ok (.docs (pySlice r.docs lo hi (st.getD 1)))
      | none =>
        let qc : ExecQS := ⟨setLimits qs.state lo hi, none⟩
        match st with
        | none => .ok (.qs qc)
        | some v =>
          if v = 0 then .ok (.qs qc)
          else .ok (.docs (pySlice (getResults solr [] qc).1 none none v))

/-! ## Grouping (modelled from the spec) -/

/-- Modelled from the spec: grouping support (the `group_field` and
`group_opts` attributes and the grouping block of `query_opts`) is
exercised by the repository's tests (`test_query_opts_group`,
`test_group`) but missing from the source snapshot under `src/`.  The
state is the ordinary query state plus `groupField: string|null` and
`groupOptions: mapping` (spec §3). -/
structure GroupQueryState where
  base : QueryState
  group_field : Option String
  group_opts : Params
deriving DecidableEq, Repr

/-- Modelled from the spec (§4.3 step 10): "if `groupField` set,
`group=true`, `group.field=groupField`, merge `groupOptions`". -/
def setGroupingOpts (g : GroupQueryState) (q : Params) : Params :=
  match g.group_field with
  | some gf =>
    updateParams (updateParams q [("group", .b true), ("group.field", .s gf)])
      g.group_opts
  | none => q

/-- Modelled from the spec: the grouped pre-strip pipeline, with the
grouping block applied after the stats block and before the
raw-parameter merge (spec §4.3 steps 10-12). -/
def queryOptsGroupedPre (g : GroupQueryState) : Params :=
  updateParams
    (setGroupingOpts g
      (setStatsOpts g.base (setFacetingOpts g.base (setHighlightingOpts g.base (baseOpts g.base)))))
    g.base.raw_params

/-- Modelled from the spec: `query_opts` with the grouping block
included (spec §4.3 steps 10-12). -/
def queryOptsGrouped (g : GroupQueryState) : Params :=
  stripEmpty (queryOptsGroupedPre g)

/-! ## Heap model of the fluent builder (chain purity)

The directive methods of `SolrQuerySet` mutate Python lists and dicts in
place on the clone returned by `_clone`, so their frame properties (the
receiver is structurally unchanged, no mutable collection is shared
between the receiver and the clone) are about object identity.  We model
the mutable store explicitly: a heap maps addresses to list and dict
values, and a queryset instance holds addresses for its eight list
attributes and four dict attributes. -/

/-- The mutable store: list cells and dict cells addressed by naturals,
with allocation counters. -/
structure Heap where
  lists : Nat → List String
  dicts : Nat → Params
  nextL : Nat
  nextD : Nat

/-- A `SolrQuerySet` instance in the heap model: the runtime class
chosen by `self.__class__` in `_clone` (`cls`), the shared transport
client reference, the two scalar attributes, and the addresses of the
twelve mutable collection attributes. -/
structure QSRef where
  cls : String
  solrId : Nat
  start : Int
  stop : Option Int
  sort_options : Nat
  search_qs : Nat
  filter_qs : Nat
  field_list : Nat
  highlight_fields : Nat
  facet_field_list : Nat
  stats_field_list : Nat
  range_facet_fields : Nat
  facet_opts : Nat
  stats_opts : Nat
  highlight_opts : Nat
  raw_params : Nat
deriving DecidableEq, Repr

def readL (h : Heap) (r : Nat) : List String := h.lists r

def readD (h : Heap) (r : Nat) : Params := h.dicts r

def writeL (h : Heap) (r : Nat) (v : List String) : Heap :=
  { h with lists := fun x => if x = r then v else h.lists x }

def writeD (h : Heap) (r : Nat) (v : Params) : Heap :=
  { h with dicts := fun x => if x = r then v else h.dicts x }

/-- Allocate a fresh list cell. -/
def allocL (h : Heap) (v : List String) : Heap × Nat :=
  ({ h with lists := fun x => if x = h.nextL then v else h.lists x,
            nextL := h.nextL + 1 },
   h.nextL)

/-- Allocate a fresh dict cell. -/
def allocD (h : Heap) (v : Params) : Heap × Nat :=
  ({ h with dicts := fun x => if x = h.nextD then v else h.dicts x,
            nextD := h.nextD + 1 },
   h.nextD)

/-- The addresses of the eight list attributes of an instance. -/
def listRefs (b : QSRef) : List Nat :=
  [b.sort_options, b.search_qs, b.filter_qs, b.field_list, b.highlight_fields,
   b.facet_field_list, b.stats_field_list, b.range_facet_fields]

/-- The addresses of the four dict attributes of an instance. -/
def dictRefs (b : QSRef) : List Nat :=
  [b.facet_opts, b.stats_opts, b.highlight_opts, b.raw_params]

/-- All collection addresses of `b` are below the allocation counters:
`b` lives in heap `h`. -/
def validIn (h : Heap) (b : QSRef) : Prop :=
  (∀ r ∈ listRefs b, r < h.nextL) ∧ (∀ r ∈ dictRefs b, r < h.nextD)

instance (h : Heap) (b : QSRef) : Decidable (validIn h b) := by
  unfold validIn; infer_instance

/-- A structural snapshot of an instance's own state: scalars plus the
contents of all its collection cells. -/
def snapshot (h : Heap) (b : QSRef) :
    String × Int × Option Int × List (List String) × List Params :=
  (b.cls, b.start, b.stop, (listRefs b).map (readL h), (dictRefs b).map (readD h))

/-- Method `SolrQuerySet._clone` (queryset.py lines 552-578): build a fresh
instance of the receiver's own runtime class, copy `start` and `stop`,
and give the clone fresh copies of every list and dict attribute.  The
twelve copies are modelled as twelve fresh cells holding the current
contents of `b`'s cells. -/
def cloneQS (h : Heap) (b : QSRef) : Heap × QSRef :=
  let nL := h.nextL
  let nD := h.nextD
  let c : QSRef :=
    { cls := b.cls, solrId := b.solrId, start := b.start, stop := b.stop,
      highlight_fields := nL, search_qs := nL + 1, filter_qs := nL + 2,
      sort_options := nL + 3, field_list := nL + 4, range_facet_fields := nL + 5,
      facet_field_list := nL + 6, stats_field_list := nL + 7,
      highlight_opts := nD, raw_params := nD + 1, facet_opts := nD + 2,
      stats_opts := nD + 3 }
  let h' : Heap :=
    { lists := fun a =>
        if a = nL then readL h b.highlight_fields
        else if a = nL + 1 then readL h b.search_qs
        else if a = nL + 2 then readL h b.filter_qs
        else if a = nL + 3 then readL h b.sort_options
        else if a = nL + 4 then readL h b.field_list
        else if a = nL + 5 then readL h b.range_facet_fields
        else if a = nL + 6 then readL h b.facet_field_list
        else if a = nL + 7 then readL h b.stats_field_list
        else h.lists a,
      dicts := fun a =>
        if a = nD then readD h b.highlight_opts
        else if a = nD + 1 then readD h b.raw_params
        else if a = nD + 2 then readD h b.facet_opts
        else if a = nD + 3 then readD h b.stats_opts
        else h.dicts a,
      nextL := nL + 8,
      nextD := nD + 4 }
  (h', c)

/-- The sort entry built by `order_by` for one argument: a leading `-`
selects descending order and is stripped (`lstrip` removes every
leading dash). -/
def sortEntry (a : String) : String :=
  if pyStartsWith a "-" then
    String.mk (a.toList.dropWhile (fun c => c = '-')) ++ " desc"
  else a ++ " asc"

/-- A call to one of the directive methods of `SolrQuerySet`, with its
arguments.  Keyword-argument dicts are embedded as ordered pairs. -/
inductive Directive
  | filter (args : List String) (tag : String) (kwargs : List (String × LookupVal))
  | search (args : List String) (kwargs : List (String × LookupVal))
  | order_by (args : List String)
  | facet (args : List String) (kwargs : Params)
  | facet_field (field exclude : String) (kwargs : Params)
  | facet_range (field : String) (kwargs : Params)
  | stats (args : List String) (kwargs : Params)
  | only (args : List String) (replace : Bool) (kwargs : List (String × String))
  | also (args : List String) (kwargs : List (String × String))
  | highlight (field : String) (kwargs : Params)
  | raw_query_parameters (kwargs : Params)
  | all
  | noneDir
deriving Repr

/-- Shared body of `only` and `also` (queryset.py lines 482-510):
clone, replace or extend the field list, then append the
`"key:value"` alias projections. -/
def onlyOp (h : Heap) (b : QSRef) (args : List String) (replace : Bool)
    (kwargs : List (String × String)) : Heap × QSRef :=
  let (h1, c) := cloneQS h b
  let (h2, c2) :=
    match replace with
    | true =>
      let (hx, r) := allocL h1 args
      (hx, { c with field_list := r })
    | false =>
      (writeL h1 c.field_list (readL h1 c.field_list ++ args), c)
  (writeL h2 c2.field_list
    (readL h2 c2.field_list ++ kwargs.map (fun kv => kv.1 ++ ":" ++ kv.2)), c2)

/-- One step of the fluent API: each directive clones the receiver and
mutates (or rebinds) only the clone's own cells, exactly following the
bodies of the corresponding methods in queryset.py. -/
def applyDirective (d : Directive) (h : Heap) (b : QSRef) : Heap × QSRef :=
  match d with
  | .filter args tag kwargs =>
    let (h1, c) := cloneQS h b
    (writeL h1 c.filter_qs
      (readL h1 c.filter_qs ++ args ++
        kwargs.map (fun kv => lookupToFilter kv.1 kv.2 tag)), c)
  | .search args kwargs =>
    let (h1, c) := cloneQS h b
    (writeL h1 c.search_qs
      (readL h1 c.search_qs ++ args ++
        kwargs.map (fun kv => lookupToFilter kv.1 kv.2 "")), c)
  | .order_by args =>
    let (h1, c) := cloneQS h b
    (writeL h1 c.sort_options (readL h1 c.sort_options ++ args.map sortEntry), c)
  | .facet args kwargs =>
    let (h1, c) := cloneQS h b
    let (h2, r) := allocL h1 args
    (writeD h2 c.facet_opts (updateParams (readD h2 c.facet_opts) kwargs),
     { c with facet_field_list := r })
  | .facet_field field exclude kwargs =>
    let (h1, c) := cloneQS h b
    let entry := if exclude ≠ "" then "\x7b!ex=" ++ exclude ++ "\x7d" ++ field else field
    let h2 := writeL h1 c.facet_field_list (readL h1 c.facet_field_list ++ [entry])
    (writeD h2 c.facet_opts
      (updateParams (readD h2 c.facet_opts)
        (kwargs.map (fun kv => ("f." ++ field ++ ".facet." ++ kv.1, kv.2)))), c)
  | .facet_range field kwargs =>
    let (h1, c) := cloneQS h b
    let h2 := writeL h1 c.range_facet_fields (readL h1 c.range_facet_fields ++ [field])
    (writeD h2 c.facet_opts
      (updateParams (readD h2 c.facet_opts)
        (kwargs.map (fun kv => ("f." ++ field ++ ".facet.range." ++ kv.1, kv.2)))), c)
  | .stats args kwargs =>
    let (h1, c) := cloneQS h b
    let (h2, r) := allocL h1 args
    (writeD h2 c.stats_opts (updateParams (readD h2 c.stats_opts) kwargs),
     { c with stats_field_list := r })
  | .only args replace kwargs => onlyOp h b args replace kwargs
  | .also args kwargs => onlyOp h b args false kwargs
  | .highlight field kwargs =>
    let (h1, c) := cloneQS h b
    let h2 := writeL h1 c.highlight_fields (readL h1 c.highlight_fields ++ [field])
    (writeD h2 c.highlight_opts
      (updateParams (readD h2 c.highlight_opts)
        (kwargs.map (fun kv => ("f." ++ field ++ ".hl." ++ kv.1, kv.2)))), c)
  | .raw_query_parameters kwargs =>
    let (h1, c) := cloneQS h b
    (writeD h1 c.raw_params (updateParams (readD h1 c.raw_params) kwargs), c)
  | .all => cloneQS h b
  | .noneDir =>
    let (h1, c) := cloneQS h b
    let (h2, r) := allocL h1 ["NOT *:*"]
    (h2, { c with search_qs := r })

/-! ## Predicates and concrete instances used by the theorems -/

/-- The compiled-parameter keys whose presence the spec ties to the
query state. -/
def reservedKeys : List String := ["rows", "fq", "sort", "fl", "hl", "facet", "stats"]

/-- The option maps that are merged verbatim into the compiled
parameters (`highlight_opts` and `raw_params`, whose keys are not
transformed) do not define any reserved key, and no stats option key is
the literal `"stats"` (which the `stats` prefixing rule would pass
through unchanged).  Facet option keys need no such condition: the
`facet.`/`f.` prefixing rule keeps them away from every reserved key. -/
def noReservedOverrides (s : QueryState) : Prop :=
  (∀ kv ∈ s.highlight_opts, kv.1 ∉ reservedKeys) ∧
  (∀ kv ∈ s.raw_params, kv.1 ∉ reservedKeys) ∧
  (∀ kv ∈ s.stats_opts, kv.1 ≠ "stats")

instance (s : QueryState) : Decidable (noReservedOverrides s) := by
  unfold noReservedOverrides; infer_instance

/-- Heap evolution that leaves every cell allocated in `h` untouched. -/
def heapFrame (h h' : Heap) : Prop :=
  (∀ a, a < h.nextL → h'.lists a = h.lists a) ∧
  (∀ a, a < h.nextD → h'.dicts a = h.dicts a)

/-- A transport collaborator whose every query fails (network or
backend error: `SolrClient.query` returns `None`). -/
def solrFail : Transport := fun _ => none

/-- A transport collaborator that answers every query with the fixed
response `r`. -/
def solrConst (r : SolrResponse) : Transport := fun _ => some r

/-- A small concrete Solr response used by witnesses and
counterexamples. -/
def exResp : SolrResponse :=
  { numFound := 2,
    docs := [[("id", "1")], [("id", "2")]],
    facet_fields := [("title_t", [("a", 2)]), ("other_f", [("b", 1)])],
    facet_ranges := [("year_i", [("1900", 3)])],
    stats := [("title_t", [("min", 1)])],
    highlighting := [("d1", [("title_t", ["snippet"])])],
    expanded := [("g", [("id", "2")])] }

/-- A fresh queryset over the default state, result cache empty. -/
def exQS : ExecQS := ⟨defaultQS, none⟩

/-- A concrete aliased queryset (logical name `title` for backend field
`title_t`) whose underlying cache already holds `exResp`. -/
def exAliased : AliasedQS := ⟨[("title", "title_t")], ⟨defaultQS, some exResp⟩⟩

/-- A query state whose `stop` is set to `0` (reachable through the
slicing protocol, e.g. `qs[0:0]`). -/
def stopZeroQS : QueryState := { defaultQS with stop := some 0 }

/-- A populated query state with limits, a sort, a filter and a field
list. -/
def shapeQS : QueryState :=
  { defaultQS with
      stop := some 10,
      sort_options := ["title asc"],
      filter_qs := ["a:b"],
      field_list := ["f1"] }

/-- A small concrete heap: eight list cells and four dict cells
allocated, all empty. -/
def exHeap : Heap := ⟨fun _ => [], fun _ => [], 8, 4⟩

/-- A concrete queryset instance living in `exHeap`, holding the twelve
allocated cells. -/
def exRef : QSRef :=
  ⟨"SolrQuerySet", 0, 0, none, 0, 1, 2, 3, 4, 5, 6, 7, 0, 1, 2, 3⟩

/-- The grouped query state exercised by the repository's tests:
`group_field = "group_id"`, `group_opts = {"group.limit": 3}`. -/
def groupQS : GroupQueryState :=
  ⟨defaultQS, some "group_id", [("group.limit", PVal.n 3)]⟩

/-! ## Association-list lemmas for `Params` -/

theorem getP_nil (k : String) : getP [] k = none := rfl

theorem getP_cons (a : String × PVal) (p : Params) (k : String) :
    getP (a :: p) k = if a.1 = k then some a.2 else getP p k := by
  by_cases h : a.1 = k <;> simp [getP, List.find?, h]

theorem getP_eq_none_iff (p : Params) (k : String) :
    getP p k = none ↔ ∀ kv ∈ p, kv.1 ≠ k := by
  simp [getP, Option.map_eq_none', List.find?_eq_none]

theorem getP_append_of_none (p q : Params) (k : String) (h : getP p k = none) :
    getP (p ++ q) k = getP q k := by
  induction p with
  | nil => rfl
  | cons a t ih =>
    rw [getP_cons] at h
    rw [List.cons_append, getP_cons]
    by_cases ha : a.1 = k
    · simp [ha] at h
    · rw [if_neg ha]
      rw [if_neg ha] at h
      exact ih h

theorem getP_append_of_some (p q : Params) (k : String) (v : PVal)
    (h : getP p k = some v) : getP (p ++ q) k = some v := by
  induction p with
  | nil => simp [getP_nil] at h
  | cons a t ih =>
    rw [getP_cons] at h
    rw [List.cons_append, getP_cons]
    by_cases ha : a.1 = k
    · rw [if_pos ha] at h ⊢; exact h
    · rw [if_neg ha] at h ⊢; exact ih h

theorem getP_map_update_self (p : Params) (k : String) (v : PVal)
    (hp : p.any (fun kv => kv.1 = k) = true) :
    getP (p.map (fun kv => if kv.1 = k then (k, v) else kv)) k = some v := by
  induction p with
  | nil => simp at hp
  | cons a t ih =>
    by_cases h : a.1 = k
    · simp only [List.map_cons, if_pos h]
      rw [getP_cons]
      simp
    · simp only [List.any_cons, Bool.or_eq_true, decide_eq_true_eq] at hp
      rcases hp with h1 | h2
      · exact absurd h1 h
      · simp only [List.map_cons, if_neg h]
        rw [getP_cons, if_neg h]
        exact ih h2

theorem getP_map_update_ne (p : Params) (k : String) (v : PVal) (k' : String)
    (hne : k' ≠ k) :
    getP (p.map (fun kv => if kv.1 = k then (k, v) else kv)) k' = getP p k' := by
  induction p with
  | nil => rfl
  | cons a t ih =>
    by_cases h : a.1 = k
    · simp only [List.map_cons, if_pos h]
      rw [getP_cons, getP_cons, if_neg (fun hk => hne hk.symm), if_neg]
      · exact ih
      · rw [h]; exact fun hk => hne hk.symm
    · simp only [List.map_cons, if_neg h]
      rw [getP_cons, getP_cons]
      by_cases ha : a.1 = k'
      · rw [if_pos ha, if_pos ha]
      · rw [if_neg ha, if_neg ha]; exact ih

theorem getP_setKey_self (p : Params) (k : String) (v : PVal) :
    getP (setKey p k v) k = some v := by
  unfold setKey
  split
  case isTrue hp => exact getP_map_update_self p k v hp
  case isFalse hp =>
    have hnone : getP p k = none := by
      rw [getP_eq_none_iff]
      intro kv hkv hk
      exact hp (List.any_eq_true.mpr ⟨kv, hkv, by simp [hk]⟩)
    rw [getP_append_of_none _ _ _ hnone, getP_cons]
    simp

theorem getP_setKey_ne (p : Params) (k : String) (v : PVal) (k' : String)
    (hne : k' ≠ k) : getP (setKey p k v) k' = getP p k' := by
  unfold setKey
  split
  case isTrue hp => exact getP_map_update_ne p k v k' hne
  case isFalse hp =>
    cases hv : getP p k' with
    | some w => exact getP_append_of_some _ _ _ _ hv
    | none =>
      have h1 : getP ([(k, v)] : Params) k' = none := by
        rw [getP_cons, if_neg (fun hk => hne hk.symm)]; rfl
      exact (getP_append_of_none _ _ _ hv).trans h1

theorem applyOpts_cons (T : String → String) (p : Params) (a : String × PVal)
    (t : Params) :
    applyOpts T p (a :: t) = applyOpts T (setKey p (T a.1) a.2) t := rfl

theorem getP_applyOpts_ne (T : String → String) (opts p : Params) (k : String)
    (h : ∀ kv ∈ opts, T kv.1 ≠ k) :
    getP (applyOpts T p opts) k = getP p k := by
  induction opts generalizing p with
  | nil => rfl
  | cons a t ih =>
    rw [applyOpts_cons, ih _ (fun kv hkv => h kv (List.mem_cons_of_mem a hkv)),
      getP_setKey_ne]
    exact fun hk => h a (List.mem_cons_self a t) hk.symm

theorem getP_update_ne (p q : Params) (k : String) (h : ∀ kv ∈ q, kv.1 ≠ k) :
    getP (updateParams p q) k = getP p k :=
  getP_applyOpts_ne id q p k (by simpa using h)

theorem getP_update_mem (p q : Params) (k : String) (v : PVal)
    (hmem : (k, v) ∈ q) (hnd : (keysP q).Nodup) :
    getP (updateParams p q) k = some v := by
  induction q generalizing p with
  | nil => simp at hmem
  | cons a t ih =>
    rw [show updateParams p (a :: t) = updateParams (setKey p a.1 a.2) t from rfl]
    rcases List.mem_cons.mp hmem with heq | hmem'
    · subst heq
      have hnot : ∀ kv ∈ t, kv.1 ≠ k := by
        intro kv hkv hk
        simp only [keysP, List.map_cons, List.nodup_cons] at hnd
        exact hnd.1 (hk ▸ List.mem_map_of_mem (fun kv => kv.1) hkv)
      rw [getP_update_ne _ _ _ hnot]
      exact getP_setKey_self p k v
    · refine ih _ hmem' ?_
      simp only [keysP, List.map_cons, List.nodup_cons] at hnd
      exact hnd.2

theorem keysP_map_update (p : Params) (k : String) (v : PVal) :
    keysP (p.map (fun kv => if kv.1 = k then (k, v) else kv)) = keysP p := by
  unfold keysP
  rw [List.map_map]
  apply List.map_congr_left
  intro kv _
  by_cases h : kv.1 = k <;> simp [h]

theorem nodupKeys_setKey (p : Params) (k : String) (v : PVal)
    (h : (keysP p).Nodup) : (keysP (setKey p k v)).Nodup := by
  unfold setKey
  split
  case isTrue hp => rw [keysP_map_update]; exact h
  case isFalse hp =>
    have hk : k ∉ keysP p := by
      intro hmem
      rcases List.mem_map.mp hmem with ⟨kv, hkv, hk⟩
      exact hp (List.any_eq_true.mpr ⟨kv, hkv, by simp [hk]⟩)
    simp only [keysP, List.map_append]
    simp [List.nodup_append, keysP] at h hk ⊢
    exact ⟨h, hk⟩

theorem nodupKeys_applyOpts (T : String → String) (opts p : Params)
    (h : (keysP p).Nodup) : (keysP (applyOpts T p opts)).Nodup := by
  induction opts generalizing p with
  | nil => exact h
  | cons a t ih => exact ih _ (nodupKeys_setKey _ _ _ h)

theorem getP_stripEmpty_none (p : Params) (k : String) (h : getP p k = none) :
    getP (stripEmpty p) k = none := by
  rw [getP_eq_none_iff] at h ⊢
  intro kv hkv
  exact h kv (List.mem_of_mem_filter hkv)

theorem getP_stripEmpty_some (p : Params) (k : String) (v : PVal)
    (h : getP p k = some v) (hv : ¬(v = .s "" ∨ v = .l [])) :
    getP (stripEmpty p) k = some v := by
  induction p with
  | nil => simp [getP_nil] at h
  | cons a t ih =>
    rw [getP_cons] at h
    by_cases ha : a.1 = k
    · rw [if_pos ha] at h
      have hav : a.2 = v := by injection h
      have hkeep : (¬(a.2 = PVal.s "" ∨ a.2 = PVal.l [])) := hav ▸ hv
      have hkeep' : ¬ a.2 = PVal.s "" ∧ ¬ a.2 = PVal.l [] := by
        push_neg at hkeep; exact hkeep
      have : stripEmpty (a :: t) = a :: stripEmpty t := by
        simp [stripEmpty, List.filter_cons, hkeep'.1, hkeep'.2]
      rw [this, getP_cons, if_pos ha, hav]
    · rw [if_neg ha] at h
      unfold stripEmpty
      rw [List.filter_cons]
      split
      · rw [getP_cons, if_neg ha]
        exact ih h
      · exact ih h

theorem getP_stripEmpty_stripped (p : Params) (k : String) (v : PVal)
    (h : getP p k = some v) (hv : v = .s "" ∨ v = .l [])
    (hnd : (keysP p).Nodup) : getP (stripEmpty p) k = none := by
  induction p with
  | nil => simp [getP_nil] at h
  | cons a t ih =>
    rw [getP_cons] at h
    simp only [keysP, List.map_cons, List.nodup_cons] at hnd
    by_cases ha : a.1 = k
    · rw [if_pos ha] at h
      have hav : a.2 = v := by injection h
      have hdrop : ¬ (¬(a.2 = PVal.s "" ∨ a.2 = PVal.l [])) := by
        rw [hav]; exact fun hc => hc hv
      have : stripEmpty (a :: t) = stripEmpty t := by
        simp only [stripEmpty, List.filter_cons]
        split
        · exact absurd (of_decide_eq_true ‹_›) hdrop
        · rfl
      rw [this]
      apply getP_stripEmpty_none
      rw [getP_eq_none_iff]
      intro kv hkv hk
      exact hnd.1 (ha ▸ hk ▸ List.mem_map_of_mem (fun kv => kv.1) hkv)
    · rw [if_neg ha] at h
      unfold stripEmpty
      rw [List.filter_cons]
      split
      · rw [getP_cons, if_neg ha]
        exact ih h hnd.2
      · exact ih h hnd.2

/-! ## Lemmas about the compiled-parameter pipeline -/

theorem updateParams_nil (p : Params) : updateParams p [] = p := rfl

theorem updateParams_pair_eq (p : Params) (k1 k2 : String) (v1 v2 : PVal) :
    updateParams p [(k1, v1), (k2, v2)] = setKey (setKey p k1 v1) k2 v2 := rfl

theorem updateParams_triple_eq (p : Params) (k1 k2 k3 : String) (v1 v2 v3 : PVal) :
    updateParams p [(k1, v1), (k2, v2), (k3, v3)] =
      setKey (setKey (setKey p k1 v1) k2 v2) k3 v3 := rfl

theorem pairKeys_ne {K k1 k2 : String} {v1 v2 : PVal} (h1 : k1 ≠ K) (h2 : k2 ≠ K) :
    ∀ kv ∈ ([(k1, v1), (k2, v2)] : Params), kv.1 ≠ K := by
  intro kv hkv
  rcases List.mem_cons.mp hkv with rfl | hkv2
  · exact h1
  rcases List.mem_cons.mp hkv2 with rfl | h3
  · exact h2
  · simp at h3

theorem tripleKeys_ne {K k1 k2 k3 : String} {v1 v2 v3 : PVal}
    (h1 : k1 ≠ K) (h2 : k2 ≠ K) (h3 : k3 ≠ K) :
    ∀ kv ∈ ([(k1, v1), (k2, v2), (k3, v3)] : Params), kv.1 ≠ K := by
  intro kv hkv
  rcases List.mem_cons.mp hkv with rfl | hkv2
  · exact h1
  rcases List.mem_cons.mp hkv2 with rfl | hkv3
  · exact h2
  rcases List.mem_cons.mp hkv3 with rfl | h4
  · exact h3
  · simp at h4

/-- A facet option key, after the `facet.`/`f.` prefixing rule, can
never be a short key that does not start with `"f."`. -/
theorem facetKey_not_reserved (k K : String) (hK : ¬ pyStartsWith K "f." = true)
    (hlen : K.length < 6) : facetKey k ≠ K := by
  unfold facetKey
  split
  · intro h; subst h; exact hK ‹_›
  · intro h
    have hl := congrArg String.length h
    rw [String.length_append] at hl
    have h6 : ("facet." : String).length = 6 := rfl
    omega

/-- A stats option key, after the `stats` prefixing rule, can never be
a short key that does not start with `"stats"`. -/
theorem statsKey_not_reserved (k K : String) (hK : ¬ pyStartsWith K "stats" = true)
    (hlen : K.length < 6) : statsKey k ≠ K := by
  unfold statsKey
  split
  · intro h; subst h; exact hK ‹_›
  · intro h
    have hl := congrArg String.length h
    rw [String.length_append] at hl
    have h6 : ("stats." : String).length = 6 := rfl
    omega

theorem getP_baseOpts_rows (s : QueryState) :
    getP (baseOpts s) "rows" =
      (match s.stop with
       | some v => if v = 0 then none else some (.n (v - s.start))
       | none => none) := by
  unfold baseOpts
  cases s.stop with
  | none => simp [getP_cons, getP_nil]
  | some v =>
    dsimp only
    rcases eq_or_ne v 0 with rfl | hv
    · simp [getP_cons, getP_nil]
    · rw [if_pos hv, if_neg hv, getP_setKey_self]

theorem getP_baseOpts_fq (s : QueryState) :
    getP (baseOpts s) "fq" = some (.l s.filter_qs) := by
  unfold baseOpts
  cases s.stop with
  | none => simp [getP_cons]
  | some v =>
    dsimp only
    split
    · rw [getP_setKey_ne _ _ _ _ (by decide)]
      simp [getP_cons]
    · simp [getP_cons]

theorem getP_baseOpts_fl (s : QueryState) :
    getP (baseOpts s) "fl" =
      some (.s (String.intercalate "," s.field_list)) := by
  unfold baseOpts
  cases s.stop with
  | none => simp [getP_cons]
  | some v =>
    dsimp only
    split
    · rw [getP_setKey_ne _ _ _ _ (by decide)]
      simp [getP_cons]
    · simp [getP_cons]

theorem getP_baseOpts_sort (s : QueryState) :
    getP (baseOpts s) "sort" =
      some (.s (String.intercalate "," s.sort_options)) := by
  unfold baseOpts
  cases s.stop with
  | none => simp [getP_cons, getP_nil]
  | some v =>
    dsimp only
    split
    · rw [getP_setKey_ne _ _ _ _ (by decide)]
      simp [getP_cons, getP_nil]
    · simp [getP_cons, getP_nil]

theorem getP_baseOpts_of_ne (s : QueryState) (K : String)
    (h1 : K ≠ "start") (h2 : K ≠ "fq") (h3 : K ≠ "fl") (h4 : K ≠ "q")
    (h5 : K ≠ "sort") (h6 : K ≠ "rows") : getP (baseOpts s) K = none := by
  unfold baseOpts
  cases s.stop with
  | none =>
    simp [getP_cons, getP_nil, Ne.symm h1, Ne.symm h2, Ne.symm h3, Ne.symm h4,
      Ne.symm h5]
  | some v =>
    dsimp only
    split
    · rw [getP_setKey_ne _ _ _ _ h6]
      simp [getP_cons, getP_nil, Ne.symm h1, Ne.symm h2, Ne.symm h3, Ne.symm h4,
        Ne.symm h5]
    · simp [getP_cons, getP_nil, Ne.symm h1, Ne.symm h2, Ne.symm h3, Ne.symm h4,
        Ne.symm h5]

theorem nodupKeys_baseOpts (s : QueryState) : (keysP (baseOpts s)).Nodup := by
  have hbase : (keysP
      ([("start", PVal.n s.start),
        ("fq", .l s.filter_qs),
        ("fl", .s (String.intercalate "," s.field_list)),
        ("q", .s (let j := String.intercalate searchOperator s.search_qs
                  if j = "" then "*:*" else j)),
        ("sort", .s (String.intercalate "," s.sort_options))] : Params)).Nodup := by
    simp only [keysP, List.map_cons, List.map_nil]
    decide
  unfold baseOpts
  cases s.stop with
  | none => exact hbase
  | some v =>
    dsimp only
    split
    · exact nodupKeys_setKey _ _ _ hbase
    · exact hbase

theorem nodupKeys_setHighlightingOpts (s : QueryState) (p : Params)
    (h : (keysP p).Nodup) : (keysP (setHighlightingOpts s p)).Nodup := by
  unfold setHighlightingOpts
  split
  · exact nodupKeys_applyOpts _ _ _ (nodupKeys_applyOpts _ _ _ h)
  · exact h

theorem nodupKeys_setFacetingOpts (s : QueryState) (p : Params)
    (h : (keysP p).Nodup) : (keysP (setFacetingOpts s p)).Nodup := by
  unfold setFacetingOpts
  split
  · exact nodupKeys_applyOpts _ _ _ (nodupKeys_applyOpts _ _ _ h)
  · exact h

theorem nodupKeys_setStatsOpts (s : QueryState) (p : Params)
    (h : (keysP p).Nodup) : (keysP (setStatsOpts s p)).Nodup := by
  unfold setStatsOpts
  split
  · exact nodupKeys_applyOpts _ _ _ (nodupKeys_applyOpts _ _ _ h)
  · exact h

theorem nodupKeys_queryOptsPre (s : QueryState) :
    (keysP (queryOptsPre s)).Nodup := by
  unfold queryOptsPre updateParams
  exact nodupKeys_applyOpts _ _ _
    (nodupKeys_setStatsOpts _ _
      (nodupKeys_setFacetingOpts _ _
        (nodupKeys_setHighlightingOpts _ _ (nodupKeys_baseOpts s))))

/-- Keys that no block of the pipeline writes pass through the
highlight, facet and stats blocks and the raw merge unchanged. -/
theorem getP_pre_passthrough (s : QueryState) (K : String)
    (hho : ∀ kv ∈ s.highlight_opts, kv.1 ≠ K)
    (hraw : ∀ kv ∈ s.raw_params, kv.1 ≠ K)
    (hfo : ∀ kv ∈ s.facet_opts, facetKey kv.1 ≠ K)
    (hso : ∀ kv ∈ s.stats_opts, statsKey kv.1 ≠ K)
    (h5 : K ≠ "hl") (h6 : K ≠ "hl.fl") (h7 : K ≠ "facet") (h8 : K ≠ "facet.field")
    (h9 : K ≠ "facet.range") (h10 : K ≠ "stats") (h11 : K ≠ "stats.field") :
    getP (queryOptsPre s) K = getP (baseOpts s) K := by
  unfold queryOptsPre
  rw [getP_update_ne _ _ _ hraw]
  unfold setStatsOpts
  have hstats : getP (setFacetingOpts s (setHighlightingOpts s (baseOpts s))) K =
      getP (setHighlightingOpts s (baseOpts s)) K := by
    unfold setFacetingOpts
    split
    · rw [getP_applyOpts_ne _ _ _ _ hfo, updateParams_triple_eq,
        getP_setKey_ne _ _ _ _ h9, getP_setKey_ne _ _ _ _ h8,
        getP_setKey_ne _ _ _ _ h7]
    · rfl
  have hhl : getP (setHighlightingOpts s (baseOpts s)) K = getP (baseOpts s) K := by
    unfold setHighlightingOpts
    split
    · rw [getP_update_ne _ _ _ hho, updateParams_pair_eq,
        getP_setKey_ne _ _ _ _ h6, getP_setKey_ne _ _ _ _ h5]
    · rfl
  split
  · rw [getP_applyOpts_ne _ _ _ _ hso, updateParams_pair_eq,
      getP_setKey_ne _ _ _ _ h11, getP_setKey_ne _ _ _ _ h10, hstats, hhl]
  · rw [hstats, hhl]

theorem getP_setStatsOpts_of_ne (s : QueryState) (q : Params) (K : String)
    (hso : ∀ kv ∈ s.stats_opts, statsKey kv.1 ≠ K)
    (h10 : K ≠ "stats") (h11 : K ≠ "stats.field") :
    getP (setStatsOpts s q) K = getP q K := by
  unfold setStatsOpts
  split
  · rw [getP_applyOpts_ne _ _ _ _ hso, updateParams_pair_eq,
      getP_setKey_ne _ _ _ _ h11, getP_setKey_ne _ _ _ _ h10]
  · rfl

theorem getP_setFacetingOpts_of_ne (s : QueryState) (q : Params) (K : String)
    (hfo : ∀ kv ∈ s.facet_opts, facetKey kv.1 ≠ K)
    (h7 : K ≠ "facet") (h8 : K ≠ "facet.field") (h9 : K ≠ "facet.range") :
    getP (setFacetingOpts s q) K = getP q K := by
  unfold setFacetingOpts
  split
  · rw [getP_applyOpts_ne _ _ _ _ hfo, updateParams_triple_eq,
      getP_setKey_ne _ _ _ _ h9, getP_setKey_ne _ _ _ _ h8,
      getP_setKey_ne _ _ _ _ h7]
  · rfl

theorem getP_setHighlightingOpts_of_ne (s : QueryState) (q : Params) (K : String)
    (hho : ∀ kv ∈ s.highlight_opts, kv.1 ≠ K)
    (h5 : K ≠ "hl") (h6 : K ≠ "hl.fl") :
    getP (setHighlightingOpts s q) K = getP q K := by
  unfold setHighlightingOpts
  split
  · rw [getP_update_ne _ _ _ hho, updateParams_pair_eq,
      getP_setKey_ne _ _ _ _ h6, getP_setKey_ne _ _ _ _ h5]
  · rfl

/-- Stats option keys, after the `stats` prefixing rule, differ from the
literal key `"stats"` as soon as no option key is itself `"stats"`. -/
theorem statsKey_ne_stats (s : QueryState)
    (hso : ∀ kv ∈ s.stats_opts, kv.1 ≠ "stats") :
    ∀ kv ∈ s.stats_opts, statsKey kv.1 ≠ "stats" := by
  intro kv hkv hEq
  unfold statsKey at hEq
  split at hEq
  · exact hso kv hkv hEq
  · have hl := congrArg String.length hEq
    rw [String.length_append] at hl
    have h6 : ("stats." : String).length = 6 := rfl
    have h5 : ("stats" : String).length = 5 := rfl
    omega

theorem getP_pre_hl (s : QueryState)
    (hho : ∀ kv ∈ s.highlight_opts, kv.1 ≠ "hl")
    (hraw : ∀ kv ∈ s.raw_params, kv.1 ≠ "hl") :
    getP (queryOptsPre s) "hl" =
      if s.highlight_fields = [] then none else some (.b true) := by
  unfold queryOptsPre
  rw [getP_update_ne _ _ _ hraw,
    getP_setStatsOpts_of_ne s _ "hl"
      (fun kv _ => statsKey_not_reserved _ _ (by decide) (by decide))
      (by decide) (by decide),
    getP_setFacetingOpts_of_ne s _ "hl"
      (fun kv _ => facetKey_not_reserved _ _ (by decide) (by decide))
      (by decide) (by decide) (by decide)]
  unfold setHighlightingOpts
  split
  case isTrue h =>
    rw [getP_update_ne _ _ _ hho, updateParams_pair_eq,
      getP_setKey_ne _ _ _ _ (by decide), getP_setKey_self]
  case isFalse h =>
    rw [getP_baseOpts_of_ne s "hl" (by decide) (by decide) (by decide) (by decide)
        (by decide) (by decide), if_pos (not_ne_iff.mp h)]

theorem getP_pre_facet (s : QueryState)
    (hho : ∀ kv ∈ s.highlight_opts, kv.1 ≠ "facet")
    (hraw : ∀ kv ∈ s.raw_params, kv.1 ≠ "facet") :
    getP (queryOptsPre s) "facet" =
      if s.facet_field_list = [] ∧ s.range_facet_fields = [] ∧ s.facet_opts = []
      then none else some (.b true) := by
  unfold queryOptsPre
  rw [getP_update_ne _ _ _ hraw,
    getP_setStatsOpts_of_ne s _ "facet"
      (fun kv _ => statsKey_not_reserved _ _ (by decide) (by decide))
      (by decide) (by decide)]
  unfold setFacetingOpts
  split
  case isTrue h =>
    rw [getP_applyOpts_ne _ _ _ _
        (fun kv _ => facetKey_not_reserved _ _ (by decide) (by decide)),
      updateParams_triple_eq, getP_setKey_ne _ _ _ _ (by decide),
      getP_setKey_ne _ _ _ _ (by decide), getP_setKey_self,
      if_neg (fun hc => by rcases h with h | h | h
                           exacts [h hc.1, h hc.2.1, h hc.2.2])]
  case isFalse h =>
    push_neg at h
    rw [getP_setHighlightingOpts_of_ne s _ "facet" hho (by decide) (by decide),
      getP_baseOpts_of_ne s "facet" (by decide) (by decide) (by decide) (by decide)
        (by decide) (by decide),
      if_pos ⟨h.1, h.2.1, h.2.2⟩]

theorem getP_pre_stats (s : QueryState)
    (hho : ∀ kv ∈ s.highlight_opts, kv.1 ≠ "stats")
    (hraw : ∀ kv ∈ s.raw_params, kv.1 ≠ "stats")
    (hso : ∀ kv ∈ s.stats_opts, kv.1 ≠ "stats") :
    getP (queryOptsPre s) "stats" =
      if s.stats_field_list = [] then none else some (.b true) := by
  unfold queryOptsPre
  rw [getP_update_ne _ _ _ hraw]
  unfold setStatsOpts
  split
  case isTrue h =>
    rw [getP_applyOpts_ne _ _ _ _ (statsKey_ne_stats s hso), updateParams_pair_eq,
      getP_setKey_ne _ _ _ _ (by decide), getP_setKey_self]
  case isFalse h =>
    rw [getP_setFacetingOpts_of_ne s _ "stats"
        (fun kv _ => facetKey_not_reserved _ _ (by decide) (by decide))
        (by decide) (by decide) (by decide),
      getP_setHighlightingOpts_of_ne s _ "stats" hho (by decide) (by decide),
      getP_baseOpts_of_ne s "stats" (by decide) (by decide) (by decide) (by decide)
        (by decide) (by decide), if_pos (not_ne_iff.mp h)]

/-- C6 (amended): for every query state whose verbatim-merged option
maps (`highlight_opts`, `raw_params`) define no reserved key, whose
stats options do not shadow the literal key `"stats"`, and whose sort
and field lists do not comma-join to the empty string, the compiled map
contains `rows = stop - start` exactly when `stop` is set *and
non-zero* (Python truthiness); it never contains an empty-string or
empty-list value; and `fq`, `sort`, `fl`, `hl`, `facet` and `stats` are
absent exactly when their source collections are empty (for the facet
block: when the facet field list, range facet fields and facet options
are all empty). -/
theorem queryOpts_key_shapes (s : QueryState) (hres : noReservedOverrides s)
    (hsort : s.sort_options ≠ [] → String.intercalate "," s.sort_options ≠ "")
    (hfl : s.field_list ≠ [] → String.intercalate "," s.field_list ≠ "") :
    (getP (queryOpts s) "rows" =
      (match s.stop with
       | some v => if v = 0 then none else some (.n (v - s.start))
       | none => none)) ∧
    (∀ kv ∈ queryOpts s, kv.2 ≠ PVal.s "" ∧ kv.2 ≠ PVal.l []) ∧
    (getP (queryOpts s) "fq" =
      if s.filter_qs = [] then none else some (.l s.filter_qs)) ∧
    (getP (queryOpts s) "sort" =
      if s.sort_options = [] then none
      else some (.s (String.intercalate "," s.sort_options))) ∧
    (getP (queryOpts s) "fl" =
      if s.field_list = [] then none
      else some (.s (String.intercalate "," s.field_list))) ∧
    (getP (queryOpts s) "hl" =
      if s.highlight_fields = [] then none else some (.b true)) ∧
    (getP (queryOpts s) "facet" =
      if s.facet_field_list = [] ∧ s.range_facet_fields = [] ∧ s.facet_opts = []
      then none else some (.b true)) ∧
    (getP (queryOpts s) "stats" =
      if s.stats_field_list = [] then none else some (.b true)) := by
  obtain ⟨hho, hraw, hsk⟩ := hres
  have hhoK : ∀ K, K ∈ reservedKeys → ∀ kv ∈ s.highlight_opts, kv.1 ≠ K :=
    fun K hK kv hkv h => hho kv hkv (by rw [h]; exact hK)
  have hrawK : ∀ K, K ∈ reservedKeys → ∀ kv ∈ s.raw_params, kv.1 ≠ K :=
    fun K hK kv hkv h => hraw kv hkv (by rw [h]; exact hK)
  have hnd := nodupKeys_queryOptsPre s
  have hrows_pre : getP (queryOptsPre s) "rows" = getP (baseOpts s) "rows" :=
    getP_pre_passthrough s "rows" (hhoK "rows" (by decide)) (hrawK "rows" (by decide))
      (fun kv _ => facetKey_not_reserved _ _ (by decide) (by decide))
      (fun kv _ => statsKey_not_reserved _ _ (by decide) (by decide))
      (by decide) (by decide) (by decide) (by decide) (by decide) (by decide)
      (by decide)
  have hrows : getP (queryOpts s) "rows" =
      (match s.stop with
       | some v => if v = 0 then none else some (.n (v - s.start))
       | none => none) := by
    show getP (stripEmpty (queryOptsPre s)) "rows" = _
    cases hstop : s.stop with
    | none =>
      have h0 : getP (queryOptsPre s) "rows" = none := by
        rw [hrows_pre, getP_baseOpts_rows, hstop]
      rw [getP_stripEmpty_none _ _ h0]
    | some v =>
      rcases eq_or_ne v 0 with rfl | hv
      · have h0 : getP (queryOptsPre s) "rows" = none := by
          rw [hrows_pre, getP_baseOpts_rows, hstop]
          exact rfl
        rw [getP_stripEmpty_none _ _ h0]
        exact rfl
      · have h0 : getP (queryOptsPre s) "rows" = some (.n (v - s.start)) := by
          rw [hrows_pre, getP_baseOpts_rows, hstop]
          simp [hv]
        rw [getP_stripEmpty_some _ _ _ h0
          (by rintro (hc | hc) <;> exact PVal.noConfusion hc)]
        simp [hv]
  have hvals : ∀ kv ∈ queryOpts s, kv.2 ≠ PVal.s "" ∧ kv.2 ≠ PVal.l [] := by
    intro kv hkv
    simp only [queryOpts, stripEmpty, List.mem_filter] at hkv
    have h2 := of_decide_eq_true hkv.2
    push_neg at h2
    exact h2
  have hfq_pre : getP (queryOptsPre s) "fq" = some (.l s.filter_qs) :=
    (getP_pre_passthrough s "fq" (hhoK "fq" (by decide)) (hrawK "fq" (by decide))
      (fun kv _ => facetKey_not_reserved _ _ (by decide) (by decide))
      (fun kv _ => statsKey_not_reserved _ _ (by decide) (by decide))
      (by decide) (by decide) (by decide) (by decide) (by decide) (by decide)
      (by decide)).trans (getP_baseOpts_fq s)
  have hfq : getP (queryOpts s) "fq" =
      if s.filter_qs = [] then none else some (.l s.filter_qs) := by
    by_cases hc : s.filter_qs = []
    · rw [if_pos hc]
      exact getP_stripEmpty_stripped _ _ _ (by rw [hfq_pre, hc]) (Or.inr rfl) hnd
    · rw [if_neg hc]
      refine getP_stripEmpty_some _ _ _ hfq_pre ?_
      rintro (h | h)
      · exact PVal.noConfusion h
      · injection h with h2
        exact hc h2
  have hsort_pre : getP (queryOptsPre s) "sort" =
      some (.s (String.intercalate "," s.sort_options)) :=
    (getP_pre_passthrough s "sort" (hhoK "sort" (by decide)) (hrawK "sort" (by decide))
      (fun kv _ => facetKey_not_reserved _ _ (by decide) (by decide))
      (fun kv _ => statsKey_not_reserved _ _ (by decide) (by decide))
      (by decide) (by decide) (by decide) (by decide) (by decide) (by decide)
      (by decide)).trans (getP_baseOpts_sort s)
  have hsortC : getP (queryOpts s) "sort" =
      if s.sort_options = [] then none
      else some (.s (String.intercalate "," s.sort_options)) := by
    by_cases hc : s.sort_options = []
    · rw [if_pos hc]
      refine getP_stripEmpty_stripped _ _ (PVal.s "") ?_ (Or.inl rfl) hnd
      rw [hsort_pre, hc]
      decide
    · rw [if_neg hc]
      refine getP_stripEmpty_some _ _ _ hsort_pre ?_
      rintro (h | h)
      · injection h with h2
        exact hsort hc h2
      · exact PVal.noConfusion h
  have hfl_pre : getP (queryOptsPre s) "fl" =
      some (.s (String.intercalate "," s.field_list)) :=
    (getP_pre_passthrough s "fl" (hhoK "fl" (by decide)) (hrawK "fl" (by decide))
      (fun kv _ => facetKey_not_reserved _ _ (by decide) (by decide))
      (fun kv _ => statsKey_not_reserved _ _ (by decide) (by decide))
      (by decide) (by decide) (by decide) (by decide) (by decide) (by decide)
      (by decide)).trans (getP_baseOpts_fl s)
  have hflC : getP (queryOpts s) "fl" =
      if s.field_list = [] then none
      else some (.s (String.intercalate "," s.field_list)) := by
    by_cases hc : s.field_list = []
    · rw [if_pos hc]
      refine getP_stripEmpty_stripped _ _ (PVal.s "") ?_ (Or.inl rfl) hnd
      rw [hfl_pre, hc]
      decide
    · rw [if_neg hc]
      refine getP_stripEmpty_some _ _ _ hfl_pre ?_
      rintro (h | h)
      · injection h with h2
        exact hfl hc h2
      · exact PVal.noConfusion h
  have hhlC : getP (queryOpts s) "hl" =
      if s.highlight_fields = [] then none else some (.b true) := by
    have hpre := getP_pre_hl s (hhoK "hl" (by decide)) (hrawK "hl" (by decide))
    by_cases hc : s.highlight_fields = []
    · rw [if_pos hc]
      exact getP_stripEmpty_none _ _ (by rw [hpre, if_pos hc])
    · rw [if_neg hc]
      exact getP_stripEmpty_some _ _ _ (by rw [hpre, if_neg hc]) (by decide)
  have hfacetC : getP (queryOpts s) "facet" =
      if s.facet_field_list = [] ∧ s.range_facet_fields = [] ∧ s.facet_opts = []
      then none else some (.b true) := by
    have hpre := getP_pre_facet s (hhoK "facet" (by decide)) (hrawK "facet" (by decide))
    by_cases hc : s.facet_field_list = [] ∧ s.range_facet_fields = [] ∧ s.facet_opts = []
    · rw [if_pos hc]
      exact getP_stripEmpty_none _ _ (by rw [hpre, if_pos hc])
    · rw [if_neg hc]
      exact getP_stripEmpty_some _ _ _ (by rw [hpre, if_neg hc]) (by decide)
  have hstatsC : getP (queryOpts s) "stats" =
      if s.stats_field_list = [] then none else some (.b true) := by
    have hpre := getP_pre_stats s (hhoK "stats" (by decide)) (hrawK "stats" (by decide)) hsk
    by_cases hc : s.stats_field_list = []
    · rw [if_pos hc]
      exact getP_stripEmpty_none _ _ (by rw [hpre, if_pos hc])
    · rw [if_neg hc]
      exact getP_stripEmpty_some _ _ _ (by rw [hpre, if_neg hc]) (by decide)
  exact ⟨hrows, hvals, hfq, hsortC, hflC, hhlC, hfacetC, hstatsC⟩

/-- C6 counterexample: with `stop = 0` the stop attribute is set but
Python's truthiness test `if self.stop:` skips the `rows` key, so
`rows` is not present "exactly when stop is set" as the claim states. -/
theorem queryOpts_rows_stop_zero_cex :
    stopZeroQS.stop = some 0 ∧
    getP (queryOpts stopZeroQS) "rows" = none ∧
    ¬ ((getP (queryOpts stopZeroQS) "rows").isSome ↔ stopZeroQS.stop.isSome) := by
  decide

/-- Witness for `queryOpts_key_shapes` at a concrete populated state. -/
theorem queryOpts_key_shapes_witness :
    noReservedOverrides shapeQS ∧
    getP (queryOpts shapeQS) "rows" = some (.n 10) ∧
    getP (queryOpts shapeQS) "fq" = some (.l ["a:b"]) := by
  have h := queryOpts_key_shapes shapeQS (by decide) (by decide) (by decide)
  exact ⟨by decide, h.1.trans (by decide), h.2.2.1.trans (by decide)⟩

/-- C2: for every key the translator splits into a field and the `in`
lookup, empty-string/`None` sentinels are removed first; an empty
remainder yields `-field:[* TO *]`; a non-empty remainder with no
sentinel yields `field:(v1 OR v2 OR ...)`; a non-empty remainder with a
sentinel yields `-(field:[* TO *] OR -field:(v1 OR ...))`; the concrete
example from the spec evaluates as stated, and a non-empty tag prefixes
every branch with `\x7b!tag=<tag>\x7d` (the `withTag` wrapper). -/
theorem in_lookup_filter_shape (key field tag : String) (xs : List (Option String))
    (hsplit : splitOnce key "__" = some (field, "in")) :
    (keptValues xs = [] →
      lookupToFilter key (.list xs) tag = withTag tag ("-" ++ field ++ ":" ++ anyValue)) ∧
    (keptValues xs ≠ [] → hasSentinel xs = false →
      lookupToFilter key (.list xs) tag =
        withTag tag (field ++ ":(" ++ String.intercalate " OR " (keptValues xs) ++ ")")) ∧
    (keptValues xs ≠ [] → hasSentinel xs = true →
      lookupToFilter key (.list xs) tag =
        withTag tag ("-(" ++ field ++ ":" ++ anyValue ++ " OR -" ++
          (field ++ ":(" ++ String.intercalate " OR " (keptValues xs) ++ ")") ++ ")")) ∧
    lookupToFilter "item_type_s__in" (.list [some "a", some "b", some ""]) "" =
      "-(item_type_s:[* TO *] OR -item_type_s:(a OR b))" := by
  refine ⟨?_, ?_, ?_, by decide⟩
  · intro h
    simp only [lookupToFilter, hsplit]
    simp [inLookup, h]
  · intro h1 h2
    simp only [lookupToFilter, hsplit]
    simp [inLookup, h1, h2]
  · intro h1 h2
    simp only [lookupToFilter, hsplit]
    simp [inLookup, h1, h2]

/-- Witness for `in_lookup_filter_shape` at a concrete key and list. -/
theorem in_lookup_filter_shape_witness :
    splitOnce "item_type_s__in" "__" = some ("item_type_s", "in") ∧
    lookupToFilter "item_type_s__in" (.list [some "a"]) "" = "item_type_s:(a)" := by
  refine ⟨by decide, ?_⟩
  have h := (in_lookup_filter_shape "item_type_s__in" "item_type_s" "" [some "a"]
    (by decide)).2.1 (by decide) (by decide)
  exact h.trans (by decide)

/-- C5 counterexample: an unrecognized lookup suffix does *not* produce
the plain equality form on the whole key; `_lookup_to_filter` leaves
`solr_query` at its initial value and returns the empty string. -/
theorem unrecognized_lookup_cex :
    lookupToFilter "field__contains" (.str "v") "" = "" ∧
    lookupToFilter "field__contains" (.str "v") "" ≠ "field__contains:v" := by
  decide

/-- C5 (amended): a key whose suffix after the first `__` is none of
`in`, `exists`, `range` is not validated and matches no branch: the
translator returns the empty string (prefixed with `\x7b!tag=<tag>\x7d`
when a tag is given), silently dropping the condition. -/
theorem unrecognized_lookup_empty (key field lk : String) (v : LookupVal)
    (tag : String) (hsplit : splitOnce key "__" = some (field, lk))
    (h1 : lk ≠ "in") (h2 : lk ≠ "exists") (h3 : lk ≠ "range") :
    lookupToFilter key v tag = withTag tag "" := by
  simp only [lookupToFilter, hsplit]
  rw [if_neg h1, if_neg h2, if_neg h3]

/-- Witness for `unrecognized_lookup_empty` at `field__contains`. -/
theorem unrecognized_lookup_empty_witness :
    lookupToFilter "field__contains" (.str "v") "type" = "\x7b!tag=type\x7d" := by
  have h := unrecognized_lookup_empty "field__contains" "field" "contains"
    (.str "v") "type" (by decide) (by decide) (by decide) (by decide)
  exact h.trans (by decide)

/-- C3 counterexample: with a cold cache and a failing transport,
`get_highlighting` does not return an empty structure: it raises
`AttributeError` (it calls `get_results`, the cache stays `None`, and
`self._result_cache.highlighting` dereferences `None`). -/
theorem transport_failure_highlighting_cex :
    (getHighlighting solrFail exQS).1 = Except.error PyError.attributeError ∧
    (getHighlighting solrFail exQS).1 ≠ Except.ok [] := by
  have h1 : (getHighlighting solrFail exQS).1 = Except.error PyError.attributeError := rfl
  refine ⟨h1, ?_⟩
  intro hc
  rw [h1] at hc
  exact Except.noConfusion hc

/-- C3 (amended): with a cold cache, a transport failure is absorbed by
`get_results` (empty list), `count` (zero), `get_facets` and `get_stats`
(the literal empty dict), but `get_highlighting` and `get_expanded`
raise `AttributeError` because the result cache remains unset. -/
theorem transport_failure_absorption (qs : ExecQS) (h : qs.cache = none) :
    (getResults solrFail [] qs).1 = [] ∧
    count solrFail qs = 0 ∧
    (getFacets solrFail qs).1 = none ∧
    (getStats solrFail qs).1 = none ∧
    (getHighlighting solrFail qs).1 = .error .attributeError ∧
    (getExpanded solrFail qs).1 = .error .attributeError := by
  refine ⟨?_, ?_, ?_, ?_, ?_, ?_⟩ <;>
    simp [getResults, count, getFacets, getStats, getHighlighting, getExpanded,
      solrFail, h]

/-- Witness for `transport_failure_absorption` at a concrete queryset. -/
theorem transport_failure_absorption_witness :
    exQS.cache = none ∧
    (getResults solrFail [] exQS).1 = [] ∧
    count solrFail exQS = 0 ∧
    (getHighlighting solrFail exQS).1 = .error .attributeError := by
  have h := transport_failure_absorption exQS rfl
  exact ⟨rfl, h.1, h.2.1, h.2.2.2.2.1⟩

/-- C4 counterexample: `AliasedSolrQuerySet` inherits `get_stats`
unchanged, so the stats keys are backend field names, not the rewritten
logical names the claim requires. -/
theorem aliased_stats_not_rewritten_cex :
    (aliasedGetStats solrFail exAliased).1 = some [("title_t", [("min", 1)])] ∧
    (aliasedGetStats solrFail exAliased).1 ≠
      some (rewriteKeys (reverseAliases exAliased) exResp.stats) := by
  constructor
  · rfl
  · intro hc
    have h2 : some (rewriteKeys (reverseAliases exAliased) exResp.stats) =
        some [("title", [("min", (1 : Int))])] := by decide
    rw [h2] at hc
    have h1 : (aliasedGetStats solrFail exAliased).1 =
        some [("title_t", [("min", 1)])] := rfl
    rw [h1] at hc
    simp at hc

/-- C4 (amended): for an aliased queryset over a cached response,
`get_facets` rewrites the top-level keys of the `facet_fields` and
`facet_ranges` sections through the reverse alias map (values untouched,
keys absent from the map left as-is), while `get_stats` and
`get_highlighting` are inherited unchanged and perform no rewriting. -/
theorem aliased_accessor_rewrites (solr : Transport) (a : AliasedQS)
    (resp : SolrResponse) (h : a.qs.cache = some resp) :
    (aliasedGetFacets solr a).1 = .ok
      (rewriteKeys (reverseAliases a) resp.facet_fields,
       rewriteKeys (reverseAliases a) resp.facet_ranges) ∧
    (∀ d : List (String × List (String × Nat)),
      (rewriteKeys (reverseAliases a) d).map (fun kv => kv.2) =
        d.map (fun kv => kv.2)) ∧
    (∀ k, (∀ kv ∈ reverseAliases a, kv.1 ≠ k) → aliasGet (reverseAliases a) k = k) ∧
    (aliasedGetStats solr a).1 = some resp.stats ∧
    (aliasedGetHighlighting solr a).1 = .ok resp.highlighting := by
  refine ⟨?_, ?_, ?_, ?_, ?_⟩
  · simp [aliasedGetFacets, getFacets, h]
  · intro d
    simp [rewriteKeys]
  · intro k hk
    have hnone : (reverseAliases a).find? (fun kv => kv.1 = k) = none :=
      List.find?_eq_none.mpr (fun kv hkv => by simp [hk kv hkv])
    simp [aliasGet, hnone]
  · simp [aliasedGetStats, getStats, h]
  · simp [aliasedGetHighlighting, getHighlighting, h]

/-- Witness for `aliased_accessor_rewrites`: the mapped backend field
`title_t` is rewritten to `title`, the unmapped `other_f` is kept. -/
theorem aliased_accessor_rewrites_witness :
    exAliased.qs.cache = some exResp ∧
    (aliasedGetFacets solrFail exAliased).1 = .ok
      ([("title", [("a", 2)]), ("other_f", [("b", 1)])],
       [("year_i", [("1900", 3)])]) := by
  refine ⟨rfl, ?_⟩
  have h := (aliased_accessor_rewrites solrFail exAliased exResp rfl).1
  have h2 : (rewriteKeys (reverseAliases exAliased) exResp.facet_fields,
      rewriteKeys (reverseAliases exAliased) exResp.facet_ranges) =
      (([("title", [("a", 2)]), ("other_f", [("b", 1)])],
        [("year_i", [("1900", 3)])]) : FacetCounts) := by decide
  exact h.trans (by rw [h2])

/-- C7 counterexample: with a cold cache and a succeeding transport,
`get_highlighting` stores the response in the result cache (it goes
through `get_results`), so the cache is not left empty as claimed. -/
theorem accessor_cache_population_cex :
    (getHighlighting (solrConst exResp) exQS).2.cache = some exResp ∧
    (getHighlighting (solrConst exResp) exQS).2.cache ≠ none := by
  have h1 : (getHighlighting (solrConst exResp) exQS).2.cache = some exResp := rfl
  refine ⟨h1, ?_⟩
  intro hc
  rw [h1] at hc
  exact Option.noConfusion hc

/-- C7 (amended): with a cold cache, `get_facets` and `get_stats` issue
a dedicated query with `rows = 0` and `hl = false` and leave the
instance untouched (the cache stays empty); `get_highlighting` and
`get_expanded` instead run `get_results` with the ordinary compiled
options, storing the transport's response in the cache. -/
theorem accessor_query_paths (solr : Transport) (qs : ExecQS) (h : qs.cache = none) :
    getP (zeroRowsParams qs.state) "rows" = some (.n 0) ∧
    getP (zeroRowsParams qs.state) "hl" = some (.b false) ∧
    (getFacets solr qs).2 = qs ∧
    (getStats solr qs).2 = qs ∧
    (getHighlighting solr qs).2.cache = solr (queryOpts qs.state) ∧
    (getExpanded solr qs).2.cache = solr (queryOpts qs.state) := by
  refine ⟨?_, ?_, ?_, ?_, ?_, ?_⟩
  · unfold zeroRowsParams
    rw [getP_setKey_ne _ _ _ _ (by decide), getP_setKey_self]
  · unfold zeroRowsParams
    rw [getP_setKey_self]
  · simp [getFacets, h]
  · simp [getStats, h]
  · cases hr : solr (queryOpts qs.state) <;>
      simp [getHighlighting, getResults, h, updateParams_nil, hr]
  · cases hr : solr (queryOpts qs.state) <;>
      simp [getExpanded, getResults, h, updateParams_nil, hr]

/-- Witness for `accessor_query_paths` at a concrete queryset. -/
theorem accessor_query_paths_witness :
    exQS.cache = none ∧
    getP (zeroRowsParams exQS.state) "rows" = some (.n 0) ∧
    (getFacets solrFail exQS).2 = exQS ∧
    (getHighlighting (solrConst exResp) exQS).2.cache = some exResp := by
  refine ⟨rfl, ?_, ?_, ?_⟩
  · exact (accessor_query_paths solrFail exQS rfl).1
  · exact (accessor_query_paths solrFail exQS rfl).2.2.1
  · exact ((accessor_query_paths (solrConst exResp) exQS rfl).2.2.2.2.1).trans rfl

/-- C8 (modelled from the spec; grouping support is missing from the
source snapshot): when `group_field` is set to a non-empty name and the
raw parameters and group options do not shadow the grouping keys, the
compiled map contains `group = true` and `group.field` equal to that
name, and every group option (with unique keys, non-empty values, and
no raw-parameter shadowing) is merged into the map. -/
theorem grouping_block (g : GroupQueryState) (gf : String)
    (hgf : g.group_field = some gf) (hne : gf ≠ "")
    (hraw : ∀ kv ∈ g.base.raw_params, kv.1 ≠ "group" ∧ kv.1 ≠ "group.field")
    (hopts : ∀ kv ∈ g.group_opts, kv.1 ≠ "group" ∧ kv.1 ≠ "group.field") :
    getP (queryOptsGrouped g) "group" = some (.b true) ∧
    getP (queryOptsGrouped g) "group.field" = some (.s gf) ∧
    (∀ kv ∈ g.group_opts, (keysP g.group_opts).Nodup →
      (∀ kv2 ∈ g.base.raw_params, kv2.1 ≠ kv.1) →
      kv.2 ≠ .s "" → kv.2 ≠ .l [] →
      getP (queryOptsGrouped g) kv.1 = some kv.2) := by
  have hpre_group : getP (queryOptsGroupedPre g) "group" = some (.b true) := by
    unfold queryOptsGroupedPre
    rw [getP_update_ne _ _ _ (fun kv hkv => (hraw kv hkv).1)]
    unfold setGroupingOpts
    rw [hgf]
    dsimp only
    rw [getP_update_ne _ _ _ (fun kv hkv => (hopts kv hkv).1), updateParams_pair_eq,
      getP_setKey_ne _ _ _ _ (by decide), getP_setKey_self]
  have hpre_field : getP (queryOptsGroupedPre g) "group.field" = some (.s gf) := by
    unfold queryOptsGroupedPre
    rw [getP_update_ne _ _ _ (fun kv hkv => (hraw kv hkv).2)]
    unfold setGroupingOpts
    rw [hgf]
    dsimp only
    rw [getP_update_ne _ _ _ (fun kv hkv => (hopts kv hkv).2), updateParams_pair_eq,
      getP_setKey_self]
  refine ⟨?_, ?_, ?_⟩
  · exact getP_stripEmpty_some _ _ _ hpre_group
      (by rintro (hc | hc) <;> exact PVal.noConfusion hc)
  · refine getP_stripEmpty_some _ _ _ hpre_field ?_
    rintro (hc | hc)
    · injection hc with hc2
      exact hne hc2
    · exact PVal.noConfusion hc
  · intro kv hkv hnd hraw2 hv1 hv2
    have hpre : getP (queryOptsGroupedPre g) kv.1 = some kv.2 := by
      unfold queryOptsGroupedPre
      rw [getP_update_ne _ _ _ hraw2]
      unfold setGroupingOpts
      rw [hgf]
      dsimp only
      exact getP_update_mem _ _ _ _ hkv hnd
    exact getP_stripEmpty_some _ _ _ hpre
      (by rintro (hc | hc) <;> exact absurd hc (by first | exact hv1 | exact hv2))

/-- Witness for `grouping_block` at the grouped state of the tests. -/
theorem grouping_block_witness :
    groupQS.group_field = some "group_id" ∧
    getP (queryOptsGrouped groupQS) "group" = some (.b true) ∧
    getP (queryOptsGrouped groupQS) "group.field" = some (.s "group_id") ∧
    getP (queryOptsGrouped groupQS) "group.limit" = some (.n 3) := by
  have h := grouping_block groupQS "group_id" rfl (by decide) (by decide) (by decide)
  refine ⟨rfl, h.1, h.2.1, ?_⟩
  exact h.2.2 ("group.limit", .n 3) (by decide) (by decide) (by decide)
    (by decide) (by decide)

/-- C9: a key of any type other than int/slice raises `TypeError`; a
negative integer, or a slice with a negative start or stop bound, fails
the assertion.  Both errors are produced for every transport
collaborator alike (the checks precede any query), and `__getitem__`
never writes the receiver's state. -/
theorem getitem_precondition_errors (solr : Transport) (qs : ExecQS) (i : Int)
    (hi : i < 0) (lo hb st : Option Int) (hneg : (negB lo || negB hb) = true) :
    getItem solr qs .notIntOrSlice = .error .typeError ∧
    getItem solr qs (.int i) = .error .assertionError ∧
    getItem solr qs (.slice lo hb st) = .error .assertionError := by
  refine ⟨rfl, ?_, ?_⟩
  · simp [getItem, hi]
  · simp [getItem, hneg]

/-- Witness for `getitem_precondition_errors` at concrete bad keys. -/
theorem getitem_precondition_errors_witness :
    ((-1 : Int) < 0) ∧ (negB (some (-2)) || negB none) = true ∧
    getItem solrFail exQS (.int (-1)) = .error .assertionError ∧
    getItem solrFail exQS (.slice (some (-2)) none none) = .error .assertionError := by
  have h := getitem_precondition_errors solrFail exQS (-1) (by decide)
    (some (-2)) none none (by decide)
  exact ⟨by decide, by decide, h.2.1, h.2.2⟩

/-- C10: integer indexing on a cold cache clones with limits
`(k, k + 1)` and an empty cache, executes the query, and returns the
head of `get_results()`; whenever that list is empty — zero documents
returned or transport failure — the call raises `IndexError`. -/
theorem getitem_int_cold (solr : Transport) (qs : ExecQS) (k : Int)
    (hc : qs.cache = none) (hk : 0 ≤ k) :
    (intIndexClone qs k).state.start = k ∧
    (intIndexClone qs k).state.stop = some (k + 1) ∧
    (intIndexClone qs k).cache = none ∧
    getItem solr qs (.int k) =
      (match (getResults solr [] (intIndexClone qs k)).1 with
       | [] => Except.error PyError.indexError
       | d :: _ => Except.ok (GetItemVal.doc d)) ∧
    ((getResults solr [] (intIndexClone qs k)).1 = [] →
      getItem solr qs (.int k) = .error .indexError) ∧
    (solr (queryOpts (intIndexClone qs k).state) = none →
      getItem solr qs (.int k) = .error .indexError) := by
  have hnotlt : ¬ (k < 0) := not_lt.mpr hk
  have hmain : getItem solr qs (.int k) =
      (match (getResults solr [] (intIndexClone qs k)).1 with
       | [] => Except.error PyError.indexError
       | d :: _ => Except.ok (GetItemVal.doc d)) := by
    simp [getItem, hnotlt, hc]
  refine ⟨rfl, rfl, rfl, hmain, ?_, ?_⟩
  · intro he
    rw [hmain, he]
  · intro he
    have h1 : (getResults solr [] (intIndexClone qs k)).1 = [] := by
      simp [getResults, updateParams_nil, he]
    rw [hmain, h1]

/-- Witness for `getitem_int_cold`: indexing a cold queryset whose
transport fails raises `IndexError`. -/
theorem getitem_int_cold_witness :
    exQS.cache = none ∧ ((0 : Int) ≤ 0) ∧
    getItem solrFail exQS (.int 0) = .error .indexError := by
  refine ⟨rfl, by decide, ?_⟩
  exact (getitem_int_cold solrFail exQS 0 rfl (by decide)).2.2.2.2.2 rfl

/-! ## Heap-model lemmas for chain purity -/

theorem heapFrame_cloneQS (h : Heap) (b : QSRef) : heapFrame h (cloneQS h b).1 := by
  constructor
  · intro a ha
    unfold cloneQS
    dsimp only
    repeat rw [if_neg (by omega)]
  · intro a ha
    unfold cloneQS
    dsimp only
    repeat rw [if_neg (by omega)]

theorem heapFrame_writeL (h h1 : Heap) (r : Nat) (v : List String)
    (hf : heapFrame h h1) (hr : h.nextL ≤ r) : heapFrame h (writeL h1 r v) := by
  refine ⟨fun a ha => ?_, fun a ha => hf.2 a ha⟩
  show (if a = r then v else h1.lists a) = h.lists a
  rw [if_neg (by omega)]
  exact hf.1 a ha

theorem heapFrame_writeD (h h1 : Heap) (r : Nat) (v : Params)
    (hf : heapFrame h h1) (hr : h.nextD ≤ r) : heapFrame h (writeD h1 r v) := by
  refine ⟨fun a ha => hf.1 a ha, fun a ha => ?_⟩
  show (if a = r then v else h1.dicts a) = h.dicts a
  rw [if_neg (by omega)]
  exact hf.2 a ha

theorem heapFrame_allocL (h h1 : Heap) (v : List String)
    (hf : heapFrame h h1) (hle : h.nextL ≤ h1.nextL) : heapFrame h (allocL h1 v).1 := by
  refine ⟨fun a ha => ?_, fun a ha => hf.2 a ha⟩
  show (if a = h1.nextL then v else h1.lists a) = h.lists a
  rw [if_neg (by omega)]
  exact hf.1 a ha

theorem snapshot_eq_of_frame (h h' : Heap) (b : QSRef) (hv : validIn h b)
    (hf : heapFrame h h') : snapshot h' b = snapshot h b := by
  unfold snapshot
  have hL : (listRefs b).map (readL h') = (listRefs b).map (readL h) :=
    List.map_congr_left (fun r hr => hf.1 r (hv.1 r hr))
  have hD : (dictRefs b).map (readD h') = (dictRefs b).map (readD h) :=
    List.map_congr_left (fun r hr => hf.2 r (hv.2 r hr))
  rw [hL, hD]

theorem pure_step (h : Heap) (b : QSRef) (p : Heap × QSRef) (hv : validIn h b)
    (hcls : p.2.cls = b.cls) (hf : heapFrame h p.1)
    (hcL : ∀ r ∈ listRefs p.2, h.nextL ≤ r)
    (hcD : ∀ r ∈ dictRefs p.2, h.nextD ≤ r) :
    p.2.cls = b.cls ∧ snapshot p.1 b = snapshot h b ∧
    (∀ r ∈ listRefs p.2, ∀ r2 ∈ listRefs b, r ≠ r2) ∧
    (∀ r ∈ dictRefs p.2, ∀ r2 ∈ dictRefs b, r ≠ r2) := by
  refine ⟨hcls, snapshot_eq_of_frame h p.1 b hv hf, ?_, ?_⟩
  · intro r hr r2 hr2 heq
    have h1 := hv.1 r2 hr2
    have h2 := hcL r hr
    omega
  · intro r hr r2 hr2 heq
    have h1 := hv.2 r2 hr2
    have h2 := hcD r hr
    omega

theorem cloneQS_listRefs_ge (h : Heap) (b : QSRef) :
    ∀ r ∈ listRefs (cloneQS h b).2, h.nextL ≤ r := by
  intro r hr
  simp only [cloneQS, listRefs, List.mem_cons, List.not_mem_nil, or_false] at hr
  rcases hr with rfl | rfl | rfl | rfl | rfl | rfl | rfl | rfl <;> omega

theorem cloneQS_dictRefs_ge (h : Heap) (b : QSRef) :
    ∀ r ∈ dictRefs (cloneQS h b).2, h.nextD ≤ r := by
  intro r hr
  simp only [cloneQS, dictRefs, List.mem_cons, List.not_mem_nil, or_false] at hr
  rcases hr with rfl | rfl | rfl | rfl <;> omega

theorem onlyOp_step (h : Heap) (b : QSRef) (args : List String) (replace : Bool)
    (kwargs : List (String × String)) :
    (onlyOp h b args replace kwargs).2.cls = b.cls ∧
    heapFrame h (onlyOp h b args replace kwargs).1 ∧
    (∀ r ∈ listRefs (onlyOp h b args replace kwargs).2, h.nextL ≤ r) ∧
    (∀ r ∈ dictRefs (onlyOp h b args replace kwargs).2, h.nextD ≤ r) := by
  cases replace with
  | true =>
    refine ⟨rfl, ?_, ?_, ?_⟩
    · exact heapFrame_writeL h _ _ _
        (heapFrame_allocL h _ _ (heapFrame_cloneQS h b)
          (by show h.nextL ≤ h.nextL + 8; omega))
        (by show h.nextL ≤ h.nextL + 8; omega)
    · intro r hr
      simp only [onlyOp, cloneQS, allocL, listRefs, List.mem_cons,
        List.not_mem_nil, or_false] at hr
      rcases hr with rfl | rfl | rfl | rfl | rfl | rfl | rfl | rfl <;> omega
    · intro r hr
      simp only [onlyOp, cloneQS, allocL, dictRefs, List.mem_cons,
        List.not_mem_nil, or_false] at hr
      rcases hr with rfl | rfl | rfl | rfl <;> omega
  | false =>
    refine ⟨rfl, ?_, ?_, ?_⟩
    · exact heapFrame_writeL h _ _ _
        (heapFrame_writeL h _ _ _ (heapFrame_cloneQS h b)
          (by show h.nextL ≤ h.nextL + 4; omega))
        (by show h.nextL ≤ h.nextL + 4; omega)
    · exact cloneQS_listRefs_ge h b
    · exact cloneQS_dictRefs_ge h b

/-- C1: every directive call (`filter`, `search`, `order_by`, `facet`,
`facet_field`, `facet_range`, `stats`, `only`, `also`, `highlight`,
`raw_query_parameters`, `all`, `none`) on an instance `b` living in heap
`h` returns an instance of `b`'s own runtime class, leaves `b`'s own
state (`start`, `stop`, and the contents of all its list and dict
cells) structurally unchanged, and gives the returned clone list and
dict cells that are all distinct from `b`'s (no mutable collection is
shared between `b` and the clone). -/
theorem chain_purity (d : Directive) (h : Heap) (b : QSRef) (hv : validIn h b) :
    (applyDirective d h b).2.cls = b.cls ∧
    snapshot (applyDirective d h b).1 b = snapshot h b ∧
    (∀ r ∈ listRefs (applyDirective d h b).2, ∀ r2 ∈ listRefs b, r ≠ r2) ∧
    (∀ r ∈ dictRefs (applyDirective d h b).2, ∀ r2 ∈ dictRefs b, r ≠ r2) := by
  cases d with
  | filter args tag kwargs =>
    refine pure_step h b _ hv rfl ?_ ?_ ?_
    · exact heapFrame_writeL h _ _ _ (heapFrame_cloneQS h b)
        (by show h.nextL ≤ h.nextL + 2; omega)
    · exact cloneQS_listRefs_ge h b
    · exact cloneQS_dictRefs_ge h b
  | search args kwargs =>
    refine pure_step h b _ hv rfl ?_ ?_ ?_
    · exact heapFrame_writeL h _ _ _ (heapFrame_cloneQS h b)
        (by show h.nextL ≤ h.nextL + 1; omega)
    · exact cloneQS_listRefs_ge h b
    · exact cloneQS_dictRefs_ge h b
  | order_by args =>
    refine pure_step h b _ hv rfl ?_ ?_ ?_
    · exact heapFrame_writeL h _ _ _ (heapFrame_cloneQS h b)
        (by show h.nextL ≤ h.nextL + 3; omega)
    · exact cloneQS_listRefs_ge h b
    · exact cloneQS_dictRefs_ge h b
  | facet args kwargs =>
    refine pure_step h b _ hv rfl ?_ ?_ ?_
    · exact heapFrame_writeD h _ _ _
        (heapFrame_allocL h _ _ (heapFrame_cloneQS h b)
          (by show h.nextL ≤ h.nextL + 8; omega))
        (by show h.nextD ≤ h.nextD + 2; omega)
    · intro r hr
      simp only [applyDirective, cloneQS, allocL, listRefs, List.mem_cons,
        List.not_mem_nil, or_false] at hr
      rcases hr with rfl | rfl | rfl | rfl | rfl | rfl | rfl | rfl <;> omega
    · exact cloneQS_dictRefs_ge h b
  | facet_field field exclude kwargs =>
    refine pure_step h b _ hv rfl ?_ ?_ ?_
    · exact heapFrame_writeD h _ _ _
        (heapFrame_writeL h _ _ _ (heapFrame_cloneQS h b)
          (by show h.nextL ≤ h.nextL + 6; omega))
        (by show h.nextD ≤ h.nextD + 2; omega)
    · exact cloneQS_listRefs_ge h b
    · exact cloneQS_dictRefs_ge h b
  | facet_range field kwargs =>
    refine pure_step h b _ hv rfl ?_ ?_ ?_
    · exact heapFrame_writeD h _ _ _
        (heapFrame_writeL h _ _ _ (heapFrame_cloneQS h b)
          (by show h.nextL ≤ h.nextL + 5; omega))
        (by show h.nextD ≤ h.nextD + 2; omega)
    · exact cloneQS_listRefs_ge h b
    · exact cloneQS_dictRefs_ge h b
  | stats args kwargs =>
    refine pure_step h b _ hv rfl ?_ ?_ ?_
    · exact heapFrame_writeD h _ _ _
        (heapFrame_allocL h _ _ (heapFrame_cloneQS h b)
          (by show h.nextL ≤ h.nextL + 8; omega))
        (by show h.nextD ≤ h.nextD + 3; omega)
    · intro r hr
      simp only [applyDirective, cloneQS, allocL, listRefs, List.mem_cons,
        List.not_mem_nil, or_false] at hr
      rcases hr with rfl | rfl | rfl | rfl | rfl | rfl | rfl | rfl <;> omega
    · exact cloneQS_dictRefs_ge h b
  | only args replace kwargs =>
    have h0 := onlyOp_step h b args replace kwargs
    exact pure_step h b _ hv h0.1 h0.2.1 h0.2.2.1 h0.2.2.2
  | also args kwargs =>
    have h0 := onlyOp_step h b args false kwargs
    exact pure_step h b _ hv h0.1 h0.2.1 h0.2.2.1 h0.2.2.2
  | highlight field kwargs =>
    refine pure_step h b _ hv rfl ?_ ?_ ?_
    · exact heapFrame_writeD h _ _ _
        (heapFrame_writeL h _ _ _ (heapFrame_cloneQS h b)
          (by show h.nextL ≤ h.nextL + 0; omega))
        (by show h.nextD ≤ h.nextD + 0; omega)
    · exact cloneQS_listRefs_ge h b
    · exact cloneQS_dictRefs_ge h b
  | raw_query_parameters kwargs =>
    refine pure_step h b _ hv rfl ?_ ?_ ?_
    · exact heapFrame_writeD h _ _ _ (heapFrame_cloneQS h b)
        (by show h.nextD ≤ h.nextD + 1; omega)
    · exact cloneQS_listRefs_ge h b
    · exact cloneQS_dictRefs_ge h b
  | all =>
    refine pure_step h b _ hv rfl ?_ ?_ ?_
    · exact heapFrame_cloneQS h b
    · exact cloneQS_listRefs_ge h b
    · exact cloneQS_dictRefs_ge h b
  | noneDir =>
    refine pure_step h b _ hv rfl ?_ ?_ ?_
    · exact heapFrame_allocL h _ _ (heapFrame_cloneQS h b)
        (by show h.nextL ≤ h.nextL + 8; omega)
    · intro r hr
      simp only [applyDirective, cloneQS, allocL, listRefs, List.mem_cons,
        List.not_mem_nil, or_false] at hr
      rcases hr with rfl | rfl | rfl | rfl | rfl | rfl | rfl | rfl <;> omega
    · exact cloneQS_dictRefs_ge h b

/-- Witness for `chain_purity`: a concrete `filter` call on a concrete
heap leaves the receiver's snapshot intact and rebinds the clone's
filter list to a different cell. -/
theorem chain_purity_witness :
    validIn exHeap exRef ∧
    (applyDirective (Directive.filter ["a:b"] "" []) exHeap exRef).2.cls = exRef.cls ∧
    snapshot (applyDirective (Directive.filter ["a:b"] "" []) exHeap exRef).1 exRef =
      snapshot exHeap exRef ∧
    (applyDirective (Directive.filter ["a:b"] "" []) exHeap exRef).2.filter_qs ≠
      exRef.filter_qs := by
  have h := chain_purity (Directive.filter ["a:b"] "" []) exHeap exRef (by decide)
  refine ⟨by decide, h.1, h.2.1, ?_⟩
  exact h.2.2.1 _ (by simp [listRefs]) _ (by simp [listRefs])

end Parasolr
